import Mathlib

/-!
Verification development for the itinerary-planning engine of the
`ai-agency` repository (`tools/travel.py`).

The Python source is shallowly embedded: pure helpers become Lean
functions over `ℚ` (Python floats are modelled as exact rationals,
`round` as banker's rounding on the rational value), fallible HTTP
calls become an `Except PyErr` monad fed by a `World` record of
response oracles keyed by the request parameters, and `dt.date.today()`
becomes an explicit `today` parameter.  The transcendental great-circle
formula `_haversine_km` (sin/cos/asin over floats) is kept abstract as
an explicit function parameter `hav`; every claim under study is
parametric in the numeric values it produces.
-/

set_option maxRecDepth 4000
set_option linter.unusedVariables false

/-- Python `int(round(x))` / `round(x)`: round half to even (banker's
rounding) of an exact rational. -/
def py_round_int (q : ℚ) : ℤ :=
  let f := ⌊q⌋
  let r := q - f
  if r < 1/2 then f
  else if 1/2 < r then f + 1
  else if f % 2 = 0 then f else f + 1

/-- Python `round(x, n)`: round half to even at `n` decimal digits. -/
def py_round (q : ℚ) (n : ℕ) : ℚ :=
  (py_round_int (q * 10 ^ n) : ℚ) / 10 ^ n

/-- Python `int(x)` on a float value: truncation toward zero
(`Int` division in Lean is T-division, which matches). -/
def py_int (q : ℚ) : ℤ := q.num / (q.den : ℤ)

/-- ASCII lowering of one character, modelling Python `str.lower` on the
ASCII range (all strings handled by the planner's key logic are ASCII). -/
def lower_char (c : Char) : Char :=
  match c with
  | 'A' => 'a' | 'B' => 'b' | 'C' => 'c' | 'D' => 'd' | 'E' => 'e' | 'F' => 'f'
  | 'G' => 'g' | 'H' => 'h' | 'I' => 'i' | 'J' => 'j' | 'K' => 'k' | 'L' => 'l'
  | 'M' => 'm' | 'N' => 'n' | 'O' => 'o' | 'P' => 'p' | 'Q' => 'q' | 'R' => 'r'
  | 'S' => 's' | 'T' => 't' | 'U' => 'u' | 'V' => 'v' | 'W' => 'w' | 'X' => 'x'
  | 'Y' => 'y' | 'Z' => 'z'
  | c => c

/-- Python `str.lower`. -/
def py_lower (s : String) : String := ⟨s.data.map lower_char⟩

/-- Whitespace recognised by Python `str.strip` (ASCII part). -/
def is_py_space (c : Char) : Bool :=
  c = ' ' ∨ c = '\t' ∨ c = '\n' ∨ c = '\r' ∨ c = '\x0b' ∨ c = '\x0c'

def strip_trailing (l : List Char) : List Char :=
  (l.reverse.dropWhile is_py_space).reverse

def trim_chars (l : List Char) : List Char :=
  strip_trailing (l.dropWhile is_py_space)

/-- Python `str.strip()`. -/
def py_strip (s : String) : String := ⟨trim_chars s.data⟩

/-- Python `s.split(",")[0]`: the part of `s` before the first comma. -/
def first_comma_comp (s : String) : String := ⟨s.data.takeWhile (· ≠ ',')⟩

/-- `_norm_name` (travel.py:181-183): lowercase, strip, take the part
before the first comma, strip again. -/
def norm_name (s : String) : String :=
  first_comma_comp (py_strip (py_lower s)) |> py_strip

/-- Python `s.replace(c, rep)` for a single-character pattern. -/
def replace_char (s : String) (c : Char) (rep : String) : String :=
  ⟨s.data.foldr (fun ch acc => if ch = c then rep.data ++ acc else ch :: acc) []⟩

/-- Zero-pad a numeral to width `w` (for `date.isoformat`). -/
def pad_num (n : ℕ) (w : ℕ) : String :=
  let s := toString n
  ⟨List.replicate (w - s.length) '0' ++ s.data⟩

/-! ### Calendar dates (`datetime.date`) -/

structure PyDate where
  year : ℕ
  month : ℕ
  day : ℕ
deriving DecidableEq, Repr

def is_leap (y : ℕ) : Bool := y % 4 = 0 ∧ (y % 100 ≠ 0 ∨ y % 400 = 0)

def days_in_month (y m : ℕ) : ℕ :=
  if m = 2 then (if is_leap y then 29 else 28)
  else if m ∈ [4, 6, 9, 11] then 30
  else 31

/-- Lexicographic `<` on dates, as Python compares `dt.date`s. -/
def date_lt (a b : PyDate) : Bool :=
  a.year < b.year ∨ (a.year = b.year ∧
    (a.month < b.month ∨ (a.month = b.month ∧ a.day < b.day)))

def next_day (d : PyDate) : PyDate :=
  if d.day < days_in_month d.year d.month then ⟨d.year, d.month, d.day + 1⟩
  else if d.month < 12 then ⟨d.year, d.month + 1, 1⟩
  else ⟨d.year + 1, 1, 1⟩

/-- `d + timedelta(days = n)` for `n ≥ 0` (the planner only adds). -/
def add_days (d : PyDate) : ℕ → PyDate
  | 0 => d
  | n + 1 => add_days (next_day d) n

def days_before_month (y m : ℕ) : ℕ :=
  (List.range (m - 1)).foldl (fun acc i => acc + days_in_month y (i + 1)) 0

/-- `date.toordinal`: day number counted from 0001-01-01 = 1. -/
def to_ordinal (d : PyDate) : ℤ :=
  let y : ℤ := (d.year : ℤ) - 1
  365 * y + y / 4 - y / 100 + y / 400 + (days_before_month d.year d.month : ℤ) + (d.day : ℤ)

/-- `date.isoformat()`: `YYYY-MM-DD`, zero padded. -/
def isoformat (d : PyDate) : String :=
  pad_num d.year 4 ++ "-" ++ pad_num d.month 2 ++ "-" ++ pad_num d.day 2

/-- `_date_range` (travel.py:235-237): the `(d1-d0).days + 1` consecutive
dates starting at `d0` (empty when the difference is negative). -/
def date_range (d0 d1 : PyDate) : List PyDate :=
  (List.range (to_ordinal d1 - to_ordinal d0 + 1).toNat).map (add_days d0)

/-! ### `_parse_date`: the four `strptime` formats

`_parse_date` (travel.py:220-228) tries `%Y-%m-%d`, `%d-%m-%Y`,
`%d/%m/%Y`, `%Y/%m/%d` in order, treating a `ValueError` (either a
regex mismatch, trailing input, or an out-of-range calendar date) as
"try the next format".  The CPython `_strptime` regexes are modelled
alternative for alternative, including ordered-alternative backtracking.
-/

def digit_val (c : Char) : ℕ := c.toNat - '0'.toNat

/-- `%Y`: exactly four digits. -/
def match_year : List Char → Option (ℕ × List Char)
  | a :: b :: c :: d :: rest =>
    if a.isDigit ∧ b.isDigit ∧ c.isDigit ∧ d.isDigit then
      some (1000 * digit_val a + 100 * digit_val b + 10 * digit_val c + digit_val d, rest)
    else none
  | _ => none

/-- `%m` regex `1[0-2]|0[1-9]|[1-9]`, alternatives in regex order. -/
def month_alts : List Char → List (ℕ × List Char)
  | [] => []
  | a :: rest =>
    (match a, rest with
     | '1', b :: r2 => if '0' ≤ b ∧ b ≤ '2' then [(10 + digit_val b, r2)] else []
     | '0', b :: r2 => if '1' ≤ b ∧ b ≤ '9' then [(digit_val b, r2)] else []
     | _, _ => []) ++
    (if '1' ≤ a ∧ a ≤ '9' then [(digit_val a, rest)] else [])

/-- `%d` regex `3[01]|[12]\d|0[1-9]|[1-9]| [1-9]`, alternatives in
regex order. -/
def day_alts : List Char → List (ℕ × List Char)
  | [] => []
  | a :: rest =>
    (match a, rest with
     | '3', b :: r2 => if b = '0' ∨ b = '1' then [(30 + digit_val b, r2)] else []
     | _, _ => []) ++
    (match a, rest with
     | '1', b :: r2 => if b.isDigit then [(10 + digit_val b, r2)] else []
     | '2', b :: r2 => if b.isDigit then [(20 + digit_val b, r2)] else []
     | _, _ => []) ++
    (match a, rest with
     | '0', b :: r2 => if '1' ≤ b ∧ b ≤ '9' then [(digit_val b, r2)] else []
     | _, _ => []) ++
    (if '1' ≤ a ∧ a ≤ '9' then [(digit_val a, rest)] else []) ++
    (match a, rest with
     | ' ', b :: r2 => if '1' ≤ b ∧ b ≤ '9' then [(digit_val b, r2)] else []
     | _, _ => [])

def first_some {α β : Type} (f : α → Option β) : List α → Option β
  | [] => none
  | x :: r => match f x with | some y => some y | none => first_some f r

def match_lit (c : Char) : List Char → Option (List Char)
  | a :: rest => if a = c then some rest else none
  | _ => none

/-- The `datetime(...)` constructor's validation (year 1-9999, month
from the regex, day within the month). -/
def mk_valid_date (y m d : ℕ) : Option PyDate :=
  if 1 ≤ y ∧ 1 ≤ d ∧ d ≤ days_in_month y m then some ⟨y, m, d⟩ else none

/-- One format of shape `%Y sep %m sep %d`, full-string match. -/
def try_ymd (sep : Char) (l : List Char) : Option PyDate :=
  match match_year l with
  | none => none
  | some (y, r) =>
    match match_lit sep r with
    | none => none
    | some r =>
      first_some (fun (m, r2) =>
        match match_lit sep r2 with
        | none => none
        | some r3 =>
          first_some (fun (d, r4) =>
            if r4 = [] then mk_valid_date y m d else none) (day_alts r3)) (month_alts r)

/-- One format of shape `%d sep %m sep %Y`, full-string match. -/
def try_dmy (sep : Char) (l : List Char) : Option PyDate :=
  first_some (fun (d, r) =>
    match match_lit sep r with
    | none => none
    | some r2 =>
      first_some (fun (m, r3) =>
        match match_lit sep r3 with
        | none => none
        | some r4 =>
          match match_year r4 with
          | some (y, []) => mk_valid_date y m d
          | _ => none) (month_alts r2)) (day_alts l)

/-- `_parse_date` (travel.py:220-228). -/
def parse_date : Option String → Option PyDate
  | none => none
  | some s =>
    if s = "" then none
    else
      match try_ymd '-' s.data with
      | some d => some d
      | none =>
        match try_dmy '-' s.data with
        | some d => some d
        | none =>
          match try_dmy '/' s.data with
          | some d => some d
          | none => try_ymd '/' s.data

/-- `_future_default_range` (travel.py:230-233). -/
def future_default_range (today : PyDate) : PyDate × PyDate :=
  let start := add_days today 7
  (start, add_days start 2)

/-- Date resolution at the top of `plan_trip` (travel.py:278-281):
both dates must parse and be in order, else the default window. -/
def trip_dates (today : PyDate) (s e : Option String) : PyDate × PyDate :=
  match parse_date s, parse_date e with
  | some a, some b => if date_lt b a then future_default_range today else (a, b)
  | _, _ => future_default_range today

/-! ### Data model and external-world oracles -/

/-- Failures of an external HTTP call: a transport timeout, or the
`raise_for_status()` exception on a non-2xx response. -/
inductive PyErr where
  | timeout
  | httpStatusError (code : ℕ)
deriving DecidableEq, Repr

/-- One element of an Overpass response (travel.py:138-147): nodes carry
direct coordinates, ways/relations a computed center. -/
structure OsmElement where
  etype : String
  lat : Option ℚ
  lon : Option ℚ
  center_lat : Option ℚ
  center_lon : Option ℚ
  tags : List (String × String)
deriving DecidableEq, Repr

/-- One Nominatim hit, with its coordinates already parsed. -/
structure NomPlace where
  display_name : String
  lat : ℚ
  lon : ℚ
deriving DecidableEq, Repr

/-- One OSRM route: total distance in meters, duration in seconds. -/
structure OsrmRoute where
  distance : ℚ
  duration : ℚ
deriving DecidableEq, Repr

/-- Responses of the three external services, keyed by the request
parameters each Python call site sends (the HTTP layer serialises these
parameters injectively, so keying by them is faithful). -/
structure World where
  nominatim_center : String → Except PyErr (List (ℚ × ℚ))
  overpass : List (String × String) → ℚ → ℚ → ℤ → Except PyErr (List OsmElement)
  nominatim : String → Option ℚ → Option ℚ → ℕ → Except PyErr (List NomPlace)
  osrm : String → ℚ → ℚ → ℚ → ℚ → Except PyErr (List OsrmRoute)

/-- A raw candidate POI as produced by `_overpass_search` /
`_nominatim_search` (Nominatim results carry no `_tags`, hence `[]`). -/
structure RawPoi where
  name : String
  lat : ℚ
  lng : ℚ
  map_url : String
  tags : List (String × String)
deriving DecidableEq, Repr

/-- A deduplicated candidate, annotated with `_d_center_km`. -/
structure CPoi where
  name : String
  lat : ℚ
  lng : ℚ
  map_url : String
  tags : List (String × String)
  d_center_km : ℚ
deriving DecidableEq, Repr

/-- An enriched entry as built at travel.py:344-352, with the transient
`_bucket` field. -/
structure Entry where
  name : String
  lat : ℚ
  lng : ℚ
  map_url : String
  distance_km : Option ℚ
  duration_min : Option ℤ
  bucket : String
deriving DecidableEq, Repr

/-- An itinerary item: an `Entry` with `_bucket` popped. -/
structure ItinItem where
  name : String
  lat : ℚ
  lng : ℚ
  map_url : String
  distance_km : Option ℚ
  duration_min : Option ℤ
deriving DecidableEq, Repr

structure DayPlan where
  date : String
  items : List ItinItem
deriving DecidableEq, Repr

structure Links where
  flights : String
  hotels : String
deriving DecidableEq, Repr

structure TripResult where
  destination : String
  start_date : String
  end_date : String
  mode : String
  itinerary : List DayPlan
  links : Links
  notes : String
deriving DecidableEq, Repr

/-- Python `dict.get` on a tag dictionary modelled as an assoc list. -/
def dict_get (d : List (String × String)) (k : String) : Option String :=
  (d.find? (fun kv => kv.1 = k)).map (·.2)

/-- Python `a or b` where `a` is an optional string and `""` is falsy. -/
def falsy_or (a : Option String) (b : String) : String :=
  match a with
  | some s => if s = "" then b else s
  | none => b

/-- The `map_url` template (decimal rendering of the coordinates kept
abstract as `toString` of the rational; no claim inspects it). -/
def map_url_for (la lo : ℚ) : String :=
  "https://www.openstreetmap.org/?mlat=" ++ toString la ++ "&mlon=" ++ toString lo
    ++ "#map=15/" ++ toString la ++ "/" ++ toString lo

/-! ### Interest tables (travel.py:19-80) -/

def INTEREST_EXPANSIONS : List (String × List String) :=
  [("food", ["restaurants", "cafe", "cafes", "coffee", "bakery", "street food", "kebab", "lokanta", "meze"]),
   ("cafes", ["cafe", "cafes", "coffee", "coffee shop"]),
   ("history", ["historical sites", "museums", "mosque", "palace", "basilica", "archaeology"]),
   ("museums", ["museums", "art museum"]),
   ("landmarks", ["landmarks", "monuments", "viewpoints"]),
   ("parks", ["parks", "gardens", "promenade"])]

def DEFAULT_INTERESTS : List String := ["landmarks", "museums", "cafes", "parks"]

def OSM_TAGS : List (String × List (String × String)) :=
  [("food", [("amenity", "restaurant"), ("amenity", "cafe"), ("amenity", "fast_food"),
             ("amenity", "food_court"), ("shop", "bakery")]),
   ("cafes", [("amenity", "cafe"), ("amenity", "coffee_shop")]),
   ("museums", [("tourism", "museum")]),
   ("history", [("tourism", "museum"), ("historic", "*"), ("amenity", "place_of_worship")]),
   ("landmarks", [("tourism", "attraction"), ("tourism", "viewpoint"), ("historic", "*"),
                  ("man_made", "tower")]),
   ("parks", [("leisure", "park"), ("leisure", "garden")])]

def BUCKET_OF_TERM : List (String × String) :=
  [("restaurant", "food"), ("restaurants", "food"), ("bakery", "food"), ("kebab", "food"),
   ("meze", "food"), ("street food", "food"), ("lokanta", "food"),
   ("cafe", "cafes"), ("cafes", "cafes"), ("coffee", "cafes"), ("coffee shop", "cafes"),
   ("museum", "museums"), ("museums", "museums"), ("art museum", "museums"),
   ("historic", "history"), ("historical sites", "history"), ("mosque", "history"),
   ("palace", "history"), ("basilica", "history"), ("archaeology", "history"),
   ("landmarks", "landmarks"), ("monuments", "landmarks"), ("viewpoints", "landmarks"),
   ("viewpoint", "landmarks"), ("tower", "landmarks"),
   ("parks", "parks"), ("park", "parks"), ("gardens", "parks"), ("promenade", "parks")]

def assoc_find {α : Type} (m : List (String × α)) (k : String) : Option α :=
  (m.find? (fun kv => kv.1 = k)).map (·.2)

/-- `_expand_terms` (travel.py:71-80). -/
def expand_terms (interests : List String) : List String :=
  let out := interests.foldl (fun acc term =>
    let t := py_lower (py_strip term)
    acc ++ ((assoc_find INTEREST_EXPANSIONS t).getD [t])) []
  let uniq := out.foldl (fun acc t => if t ≠ "" ∧ t ∉ acc then acc ++ [t] else acc) []
  if uniq = [] then DEFAULT_INTERESTS else uniq

/-- `interests or DEFAULT_INTERESTS`: `None` and `[]` are falsy. -/
def interests_or_default (interests : Option (List String)) : List String :=
  match interests with
  | none => DEFAULT_INTERESTS
  | some [] => DEFAULT_INTERESTS
  | some l => l

/-- The closed universe of category buckets, in the fixed order used to
canonicalise Python set values. -/
def BUCKET_UNIVERSE : List String :=
  ["food", "cafes", "museums", "history", "landmarks", "parks"]

/-- Bucket selection from interests (travel.py:305-314).  The Python
`set` is modelled canonically as the (duplicate-free) sublist of
`BUCKET_UNIVERSE` whose members were inserted; set iteration order is
hash-dependent but fixed within a process, so any canonical order is a
faithful model and set equality coincides with list equality. -/
def chosen_buckets (interests : Option (List String)) : List String :=
  let raw := (interests_or_default interests).foldl (fun acc t =>
    let t' := py_lower (py_strip t)
    if (assoc_find OSM_TAGS t').isSome then acc ++ [t']
    else match assoc_find BUCKET_OF_TERM t' with
         | some b => acc ++ [b]
         | none => acc) []
  let raw := if raw = [] then ["landmarks", "museums", "cafes", "food", "parks"] else raw
  BUCKET_UNIVERSE.filter (· ∈ raw)

/-- `OSM_TAGS.get(b, [])`. -/
def osm_tags_for (b : String) : List (String × String) :=
  (assoc_find OSM_TAGS b).getD []

/-- `_bucket_for_tags` (travel.py:185-194); `if tags.get("historic"):`
is truthy exactly when the key is present with a non-empty value. -/
def bucket_for_tags (tags : List (String × String)) : String :=
  if dict_get tags "amenity" ∈ [some "restaurant", some "fast_food", some "food_court"] then "food"
  else if dict_get tags "amenity" = some "cafe" then "cafes"
  else if dict_get tags "shop" = some "bakery" then "food"
  else if dict_get tags "tourism" = some "museum" then "museums"
  else if (dict_get tags "historic").isSome ∧ dict_get tags "historic" ≠ some "" then "history"
  else if dict_get tags "tourism" ∈ [some "attraction", some "viewpoint"] then "landmarks"
  else if dict_get tags "man_made" = some "tower" then "landmarks"
  else if dict_get tags "leisure" ∈ [some "park", some "garden"] then "parks"
  else "landmarks"

/-! ### External-call wrappers (travel.py:90-170) -/

/-- `_city_center` (travel.py:90-101): one geocode, `None` when the
result list is empty. -/
def city_center (w : World) (destination : String) : Except PyErr (Option (ℚ × ℚ)) := do
  let data ← w.nominatim_center destination
  match data with
  | [] => pure none
  | x :: _ => pure (some x)

/-- `_nominatim_search` (travel.py:103-119). -/
def nominatim_search (w : World) (q : String) (lat lng : Option ℚ) (limit : ℕ) :
    Except PyErr (List RawPoi) := do
  let xs ← w.nominatim q lat lng limit
  pure (xs.map (fun x =>
    { name := falsy_or (some (py_strip x.display_name)) "Unnamed place",
      lat := x.lat, lng := x.lon, map_url := map_url_for x.lat x.lon, tags := [] }))

/-- `_overpass_search` (travel.py:131-155); the request is keyed by the
tag list, center and radius in meters (`int(radius_km * 1000)`). -/
def overpass_search (w : World) (tags : List (String × String)) (lat lng : ℚ)
    (radius_km : ℚ) : Except PyErr (List RawPoi) := do
  let els ← w.overpass tags lat lng (py_int (radius_km * 1000))
  pure (els.foldl (fun acc el =>
    let coords := if el.etype = "node" then (el.lat, el.lon) else (el.center_lat, el.center_lon)
    match coords with
    | (some la, some lo) =>
      let nm := falsy_or (dict_get el.tags "name")
                  (falsy_or (dict_get el.tags "name:en") "Unnamed place")
      acc ++ [{ name := py_strip nm, lat := la, lng := lo,
                map_url := map_url_for la lo, tags := el.tags }]
    | _ => acc) [])

/-- `_osrm_time` (travel.py:157-170): `(distance_km, duration_min)`,
both `None` on an empty route list; transport/non-2xx failures raise. -/
def osrm_time (w : World) (o_lat o_lng d_lat d_lng : ℚ) (mode : String) :
    Except PyErr (Option ℚ × Option ℤ) := do
  let profile := if mode = "foot" then "walking"
                 else if mode = "bike" then "cycling"
                 else if mode = "driving" then "driving" else "walking"
  let routes ← w.osrm profile o_lat o_lng d_lat d_lng
  match routes with
  | [] => pure (none, none)
  | r :: _ => pure (some (py_round (r.distance / 1000) 2), some (py_round_int (r.duration / 60)))

def MIN_WALK_MIN : ℤ := 3

def WALK_SPEED_MIN_PER_KM : ℚ := 12

/-- `_suspicious_foot` (travel.py:172-176): `False` on falsy distance or
non-positive duration, else average speed above 8 km/h. -/
def suspicious_foot (distance_km : Option ℚ) (duration_min : Option ℤ) : Bool :=
  match distance_km, duration_min with
  | none, _ => false
  | _, none => false
  | some d, some t =>
    if d = 0 ∨ t ≤ 0 then false
    else if (8 : ℚ) < 60 * (d / (t : ℚ)) then true else false

/-- `_fallback_walk_minutes` (travel.py:178-179). -/
def fallback_walk_minutes (distance_km : ℚ) : ℤ :=
  py_round_int (distance_km * WALK_SPEED_MIN_PER_KM)

/-! ### Deduplication and distance sort (travel.py:327-338) -/

/-- Overwrite the value stored under `k`, preserving the key's position,
as Python dict assignment does. -/
def set_assoc {α : Type} : List (String × α) → String → α → List (String × α)
  | [], k, p => [(k, p)]
  | (k', q) :: rest, k, p =>
    if k' = k then (k, p) :: rest else (k', q) :: set_assoc rest k p

/-- A raw candidate annotated with its `_d_center_km`
(travel.py:333-334). -/
def mk_cpoi (hav : ℚ → ℚ → ℚ → ℚ → ℚ) (c_lat c_lng : ℚ) (p : RawPoi) : CPoi :=
  { name := p.name, lat := p.lat, lng := p.lng, map_url := p.map_url,
    tags := p.tags, d_center_km := hav c_lat c_lng p.lat p.lng }

/-- One step of the `best_by_name` fold (travel.py:329-336). -/
def best_step (hav : ℚ → ℚ → ℚ → ℚ → ℚ) (c_lat c_lng : ℚ)
    (m : List (String × CPoi)) (p : RawPoi) : List (String × CPoi) :=
  let key := norm_name p.name
  if key = "" then m
  else
    let cp := mk_cpoi hav c_lat c_lng p
    match assoc_find m key with
    | none => m ++ [(key, cp)]
    | some q => if cp.d_center_km < q.d_center_km then set_assoc m key cp else m

/-- The `best_by_name` fold (travel.py:328-336): group by normalized
name, keep the candidate strictly closer to the center (first wins on a
tie), preserving first-insertion key order. -/
def best_by_name (hav : ℚ → ℚ → ℚ → ℚ → ℚ) (c_lat c_lng : ℚ) (raw : List RawPoi) :
    List (String × CPoi) :=
  raw.foldl (best_step hav c_lat c_lng) []

/-- Stable insertion of `a` after every element whose key is `≤` its
key; folding it yields exactly Python's stable `list.sort(key=...)`. -/
def insert_by {α : Type} (key : α → ℚ) (a : α) : List α → List α
  | [] => [a]
  | b :: bs => if key b ≤ key a then b :: insert_by key a bs else a :: b :: bs

/-- Python's stable sort by a numeric key. -/
def py_sorted {α : Type} (key : α → ℚ) (l : List α) : List α :=
  l.foldl (fun acc x => insert_by key x acc) []

/-- Lines 337-338: the dict's values, sorted by the distance-to-center
rounded to 3 decimals. -/
def dedup_pois (hav : ℚ → ℚ → ℚ → ℚ → ℚ) (c_lat c_lng : ℚ) (raw : List RawPoi) :
    List CPoi :=
  py_sorted (fun p => py_round p.d_center_km 3) ((best_by_name hav c_lat c_lng raw).map (·.2))

/-! ### Per-POI enrichment (travel.py:341-371) -/

/-- The body of the enrichment loop for one POI. -/
def enrich_poi (w : World) (mode : String) (origin_lat origin_lng : Option ℚ)
    (p : CPoi) : Except PyErr Entry := do
  let base : Entry := { name := first_comma_comp p.name, lat := p.lat, lng := p.lng,
                        map_url := p.map_url, distance_km := none, duration_min := none,
                        bucket := bucket_for_tags p.tags }
  match origin_lat, origin_lng with
  | some ola, some olo => do
    let (d, t) ← osrm_time w ola olo p.lat p.lng mode
    let t := if mode = "foot" ∧ suspicious_foot d t
             then some (fallback_walk_minutes (d.getD 0)) else t
    let t := if mode = "foot" then t.map (fun x => max MIN_WALK_MIN x) else t
    pure { base with distance_km := d, duration_min := t }
  | _, _ =>
    let dkm := p.d_center_km
    let dur : ℤ :=
      if mode = "foot" then max MIN_WALK_MIN (fallback_walk_minutes dkm)
      else if mode = "bike" then py_round_int (dkm * 4)
      else py_round_int (dkm * (5/2))
    pure { base with distance_km := some (py_round dkm 2), duration_min := some dur }

/-! ### Radius filter and nearest-20 fallback (travel.py:374-386) -/

def max_km_for (mode : String) : ℚ :=
  if mode = "foot" then 6 else if mode = "bike" then 12 else 30

/-- The last-resort pool: every deduplicated POI, annotated with the
straight-line distance from the origin, sorted ascending, first 20. -/
def nearest20 (hav : ℚ → ℚ → ℚ → ℚ → ℚ) (ola olo : ℚ) (pois : List CPoi) : List Entry :=
  (py_sorted (fun e => e.distance_km.getD 0)
    (pois.map (fun p =>
      { name := first_comma_comp p.name, lat := p.lat, lng := p.lng, map_url := p.map_url,
        distance_km := some (py_round (hav ola olo p.lat p.lng) 2), duration_min := none,
        bucket := bucket_for_tags p.tags }))).take 20

/-- Lines 374-386: keep entries with `(distance_km or 0) <= max_km`;
when that empties the pool, substitute the nearest-20 fallback. -/
def apply_radius_filter (hav : ℚ → ℚ → ℚ → ℚ → ℚ) (mode : String) (ola olo : ℚ)
    (enriched : List Entry) (pois : List CPoi) : List Entry :=
  let filtered := enriched.filter (fun e => e.distance_km.getD 0 ≤ max_km_for mode)
  if filtered = [] then nearest20 hav ola olo pois else filtered

/-! ### `_diversify` (travel.py:196-218) -/

def div_order : List String :=
  ["history", "landmarks", "museums", "food", "cafes", "parks"]

/-- The mutable state of `_diversify`'s loop: the six bucket queues, the
non-bucket leftovers and the output so far. -/
structure DivState where
  bHistory : List Entry
  bLandmarks : List Entry
  bMuseums : List Entry
  bFood : List Entry
  bCafes : List Entry
  bParks : List Entry
  other : List Entry
  out : List Entry
deriving Repr

/-- One step of the partition loop at travel.py:200-205. -/
def div_init_step (st : DivState) (it : Entry) : DivState :=
  if it.bucket = "history" then { st with bHistory := st.bHistory ++ [it] }
  else if it.bucket = "landmarks" then { st with bLandmarks := st.bLandmarks ++ [it] }
  else if it.bucket = "museums" then { st with bMuseums := st.bMuseums ++ [it] }
  else if it.bucket = "food" then { st with bFood := st.bFood ++ [it] }
  else if it.bucket = "cafes" then { st with bCafes := st.bCafes ++ [it] }
  else if it.bucket = "parks" then { st with bParks := st.bParks ++ [it] }
  else { st with other := st.other ++ [it] }

/-- The partition loop at travel.py:200-205. -/
def div_init (items : List Entry) : DivState :=
  items.foldl div_init_step ⟨[], [], [], [], [], [], [], []⟩

/-- One step of the inner `for b in order` walk: pop the bucket's head
unless the day limit is already reached. -/
def try_take (n : ℕ) (bucket out : List Entry) : List Entry × List Entry :=
  if n ≤ out.length then (bucket, out)
  else
    match bucket with
    | [] => (bucket, out)
    | x :: xs => (xs, out ++ [x])

/-- `any(buckets.values())`. -/
def any_buckets (st : DivState) : Bool :=
  ¬ (st.bHistory = [] ∧ st.bLandmarks = [] ∧ st.bMuseums = [] ∧
     st.bFood = [] ∧ st.bCafes = [] ∧ st.bParks = [])

/-- One full pass of the inner `for b in order` loop. -/
def div_pass (n : ℕ) (st : DivState) : DivState :=
  let t1 := try_take n st.bHistory st.out
  let t2 := try_take n st.bLandmarks t1.2
  let t3 := try_take n st.bMuseums t2.2
  let t4 := try_take n st.bFood t3.2
  let t5 := try_take n st.bCafes t4.2
  let t6 := try_take n st.bParks t5.2
  { st with bHistory := t1.1, bLandmarks := t2.1, bMuseums := t3.1, bFood := t4.1,
            bCafes := t5.1, bParks := t6.1, out := t6.2 }

/-- One iteration of the outer `while` body (travel.py:208-217): the
bucket pass, one leftover pop, the early `break`, then the drain of
leftovers once every bucket is empty. -/
def div_step (n : ℕ) (st : DivState) : DivState :=
  let st := div_pass n st
  let st :=
    match st.other with
    | [] => st
    | o :: rest =>
      if st.out.length < n then { st with out := st.out ++ [o], other := rest } else st
  if n ≤ st.out.length then st
  else if ¬ any_buckets st ∧ st.other ≠ [] then
    { st with out := st.out ++ st.other.take (n - st.out.length),
              other := st.other.drop (n - st.out.length) }
  else st

/-- The outer `while` loop, with enough fuel to run to completion
(every iteration under the guard consumes at least one item). -/
def div_loop (n : ℕ) : ℕ → DivState → List Entry
  | 0, st => st.out
  | fuel + 1, st =>
    if st.out.length < n ∧ (any_buckets st ∨ st.other ≠ []) then
      div_loop n fuel (div_step n st)
    else st.out

/-- `_diversify` (travel.py:196-218). -/
def diversify (items : List Entry) (per_day : ℕ) : List Entry :=
  div_loop per_day (items.length + 1) (div_init items)

/-! ### Day allocation (travel.py:388-428) -/

/-- `_key` (travel.py:393-394): lowercase name with lat/lng rounded to
6 decimals. -/
def entry_key (e : Entry) : String × ℚ × ℚ :=
  (py_lower e.name, py_round e.lat 6, py_round e.lng 6)

/-- Popping `_bucket` before a day item is emitted (travel.py:417-418). -/
def strip_bucket (e : Entry) : ItinItem :=
  { name := e.name, lat := e.lat, lng := e.lng, map_url := e.map_url,
    distance_km := e.distance_km, duration_min := e.duration_min }

/-- The selection loop at travel.py:409-421; the `_bucket` pop is
deferred to emission (`strip_bucket`), which preserves every field the
loop consults. -/
def pick_items (n : ℕ) (used : List (String × ℚ × ℚ)) :
    List (String × ℚ × ℚ) → List Entry → List Entry → List Entry × List (String × ℚ × ℚ)
  | picked, acc, [] => (acc, picked)
  | picked, acc, it :: rest =>
    if entry_key it ∈ used ∨ entry_key it ∈ picked then pick_items n used picked acc rest
    else
      let picked' := picked ++ [entry_key it]
      let acc' := acc ++ [it]
      if n ≤ acc'.length then (acc', picked')
      else pick_items n used picked' acc' rest

/-- The `while days and pool` loop (travel.py:402-428). -/
def alloc_days (per_day : ℕ) : List PyDate → List Entry → List (String × ℚ × ℚ) → List DayPlan
  | [], _, _ => []
  | day :: rest, pool, used =>
    if pool = [] then []
    else
      let lookahead := pool.take (per_day * 4)
      let pr := pick_items per_day used [] [] (diversify lookahead per_day)
      let used' := used ++ pr.2
      let pool' := pool.filter (fun e => entry_key e ∉ used')
      let plans := alloc_days per_day rest pool' used'
      if pr.1 = [] then plans
      else { date := isoformat day, items := pr.1.map strip_bucket } :: plans

/-! ### Deep links (travel.py:239-257) -/

def deeplink_flights (origin_city dest_city : String) (depart ret : Option PyDate) : String :=
  let base := "https://www.google.com/travel/flights"
  let q := if origin_city = ""
           then "?q=Flights%20to%20" ++ replace_char dest_city ' ' "%20"
           else "?q=Flights%20from%20" ++ replace_char origin_city ' ' "%20"
                ++ "%20to%20" ++ replace_char dest_city ' ' "%20"
  let q := match depart with
           | some d => q ++ "%20on%20" ++ isoformat d
           | none => q
  let q := match ret with
           | some d => q ++ "%20return%20" ++ isoformat d
           | none => q
  base ++ q

def deeplink_hotels (city : String) (checkin checkout : Option PyDate) : String :=
  let base := "https://www.booking.com/searchresults.html"
  let ps := "?ss=" ++ replace_char city ' ' "+"
  let ps := match checkin with
            | some d => ps ++ "&checkin_year=" ++ toString d.year ++ "&checkin_month="
                        ++ toString d.month ++ "&checkin_monthday=" ++ toString d.day
            | none => ps
  let ps := match checkout with
            | some d => ps ++ "&checkout_year=" ++ toString d.year ++ "&checkout_month="
                        ++ toString d.month ++ "&checkout_monthday=" ++ toString d.day
            | none => ps
  base ++ ps

/-! ### `plan_trip` (travel.py:260-441) -/

/-- The four canned Nominatim backfill queries (travel.py:324). -/
def backfill_queries (destination : String) : List String :=
  ["museum in " ++ destination, "restaurant in " ++ destination,
   "cafe in " ++ destination, "park in " ++ destination]

/-- The shell returned when no city center can be resolved
(travel.py:289-301). -/
def unresolved_shell (destination mode : String) (d0 d1 : PyDate) : TripResult :=
  { destination := destination, start_date := isoformat d0, end_date := isoformat d1,
    mode := mode, itinerary := [],
    links := { flights := deeplink_flights "" destination (some d0) (some d1),
               hotels := deeplink_hotels destination (some d0) (some d1) },
    notes := "Could not locate the city center for your destination." }

/-- The sequential enrichment loop (travel.py:341-371): `mapM` for
`Except`, propagating the first raised exception like the Python loop. -/
def map_except {α β : Type} (f : α → Except PyErr β) : List α → Except PyErr (List β)
  | [] => pure []
  | a :: l => do
    let b ← f a
    let r ← map_except f l
    pure (b :: r)

/-- The pure-plus-routing tail of `plan_trip` (travel.py:327-428): from
the raw candidate pool to the day-by-day plan. -/
def build_itinerary (hav : ℚ → ℚ → ℚ → ℚ → ℚ) (w : World) (mode : String)
    (origin_lat origin_lng : Option ℚ) (c_lat c_lng : ℚ) (days : List PyDate)
    (per_day : ℕ) (raw : List RawPoi) : Except PyErr (List DayPlan) := do
  let pois := dedup_pois hav c_lat c_lng raw
  let enriched ← map_except (enrich_poi w mode origin_lat origin_lng) pois
  let enriched := match origin_lat, origin_lng with
    | some ola, some olo => apply_radius_filter hav mode ola olo enriched pois
    | _, _ => enriched
  let pool := enriched.filter (fun e => entry_key e ∉ ([] : List (String × ℚ × ℚ)))
  pure (alloc_days per_day days pool [])

/-- `plan_trip` (travel.py:260-441), with `dt.date.today()` as the
`today` parameter and `_haversine_km` abstracted as `hav`. -/
def plan_trip (hav : ℚ → ℚ → ℚ → ℚ → ℚ) (today : PyDate) (w : World)
    (destination : String) (start_date end_date : Option String)
    (interests : Option (List String)) (pace mode : String)
    (origin_lat origin_lng : Option ℚ) (limit_per_day : ℤ) (radius_km : ℚ) :
    Except PyErr TripResult := do
  let (d0, d1) := trip_dates today start_date end_date
  let days := date_range d0 d1
  let _terms := expand_terms (interests_or_default interests)
  let center ← (match origin_lat, origin_lng with
    | some la, some lo => pure (some (la, lo))
    | _, _ => city_center w destination : Except PyErr (Option (ℚ × ℚ)))
  match center with
  | none => pure (unresolved_shell destination mode d0 d1)
  | some (c_lat, c_lng) =>
    let bs := chosen_buckets interests
    let tag_list := bs.foldl (fun acc b => acc ++ osm_tags_for b) []
    let raw ← overpass_search w tag_list c_lat c_lng (min radius_km 12)
    let raw ← (if raw.length < 12 then
        (backfill_queries destination).foldlM (fun acc q => do
          let more ← nominatim_search w q (some c_lat) (some c_lng) 30
          pure (acc ++ more)) raw
      else pure raw : Except PyErr (List RawPoi))
    let per_day := (max 1 limit_per_day).toNat
    let plan ← build_itinerary hav w mode origin_lat origin_lng c_lat c_lng days per_day raw
    pure { destination := destination, start_date := isoformat d0, end_date := isoformat d1,
           mode := mode, itinerary := plan,
           links := { flights := deeplink_flights "" destination (some d0) (some d1),
                      hotels := deeplink_hotels destination (some d0) (some d1) },
           notes := "POIs from Overpass + Nominatim fallback; diversified days; realistic walking times; global de-dup across days." }

/-! ### Normalized-name lemmas -/

theorem lower_char_comma (c : Char) : (lower_char c = ',') ↔ (c = ',') := by
  unfold lower_char
  split <;> simp_all

theorem lower_char_comma_decide (c : Char) :
    (decide (lower_char c ≠ ',')) = (decide (c ≠ ',')) := by
  by_cases h : c = ','
  · subst h; rfl
  · simp [h, (lower_char_comma c).not.mpr h]

theorem sp_ne_comma {c : Char} (h : is_py_space c = true) : (decide (c ≠ ',')) = true := by
  unfold is_py_space at h
  simp only [decide_eq_true_eq] at h ⊢
  rcases h with h | h | h | h | h | h <;> subst h <;> decide

theorem takeNC_map_lower (d : List Char) :
    (d.map lower_char).takeWhile (· ≠ ',') = (d.takeWhile (· ≠ ',')).map lower_char := by
  have hpq : ((fun x => decide (x ≠ ',')) ∘ lower_char) = (fun x : Char => decide (x ≠ ',')) := by
    funext c
    simp only [Function.comp]
    exact lower_char_comma_decide c
  rw [List.takeWhile_map, hpq]

theorem takeWhile_idem {α : Type} (p : α → Bool) (l : List α) :
    (l.takeWhile p).takeWhile p = l.takeWhile p :=
  List.takeWhile_eq_self_iff.mpr (fun _ hx => List.mem_takeWhile_imp hx)

theorem dropWhile_idem {α : Type} (p : α → Bool) (l : List α) :
    (l.dropWhile p).dropWhile p = l.dropWhile p := by
  induction l with
  | nil => rfl
  | cons c t ih =>
    by_cases h : p c
    · simp [List.dropWhile_cons, h, ih]
    · simp [List.dropWhile_cons, h]

theorem takeWhile_dropWhile_comm {α : Type} (p q : α → Bool)
    (hpq : ∀ c, q c = true → p c = true) (d : List α) :
    (d.dropWhile q).takeWhile p = (d.takeWhile p).dropWhile q := by
  induction d with
  | nil => rfl
  | cons c t ih =>
    by_cases hs : q c = true
    · rw [List.dropWhile_cons_of_pos hs, List.takeWhile_cons_of_pos (hpq c hs),
        List.dropWhile_cons_of_pos hs]
      exact ih
    · by_cases hp : p c = true
      · rw [List.dropWhile_cons_of_neg hs, List.takeWhile_cons_of_pos hp,
          List.dropWhile_cons_of_neg hs]
      · rw [List.dropWhile_cons_of_neg hs, List.takeWhile_cons_of_neg hp]
        rfl

theorem strip_trailing_decomp (l : List Char) :
    ∃ b, l = strip_trailing l ++ b ∧ ∀ c ∈ b, is_py_space c := by
  refine ⟨(l.reverse.takeWhile is_py_space).reverse, ?_, ?_⟩
  · conv_lhs => rw [← l.reverse_reverse,
      ← List.takeWhile_append_dropWhile is_py_space l.reverse]
    rw [List.reverse_append]
    rfl
  · intro c hc
    exact List.mem_takeWhile_imp (List.mem_reverse.mp hc)

theorem strip_trailing_append (y b : List Char) (hb : ∀ c ∈ b, is_py_space c) :
    strip_trailing (y ++ b) = strip_trailing y := by
  unfold strip_trailing
  rw [List.reverse_append,
    List.dropWhile_append_of_pos (fun a ha => hb a (List.mem_reverse.mp ha))]

theorem takeWhile_append_not_all {α : Type} (p : α → Bool) (a b : List α)
    (h : ¬ ∀ c ∈ a, p c = true) :
    (a ++ b).takeWhile p = a.takeWhile p := by
  induction a with
  | nil => exact absurd (by intro c hc; cases hc) h
  | cons c t ih =>
    by_cases hc : p c = true
    · have h' : ¬ ∀ x ∈ t, p x = true := by
        intro hall
        exact h (by
          intro d hd
          rcases List.mem_cons.mp hd with h1 | h2
          · subst h1; exact hc
          · exact hall d h2)
      rw [List.cons_append, List.takeWhile_cons_of_pos hc, List.takeWhile_cons_of_pos hc, ih h']
    · rw [List.cons_append, List.takeWhile_cons_of_neg hc, List.takeWhile_cons_of_neg hc]

theorem dropWhile_all_spaces (b : List Char) (hb : ∀ c ∈ b, is_py_space c = true) :
    b.dropWhile is_py_space = [] :=
  List.dropWhile_eq_nil_iff.mpr hb

theorem dropWhile_append_not_all {α : Type} (p : α → Bool) (a b : List α)
    (h : ¬ ∀ c ∈ a, p c = true) :
    (a ++ b).dropWhile p = a.dropWhile p ++ b := by
  induction a with
  | nil => exact absurd (by intro c hc; cases hc) h
  | cons c t ih =>
    by_cases hc : p c = true
    · have h' : ¬ ∀ x ∈ t, p x = true := by
        intro hall
        exact h (by
          intro d hd
          rcases List.mem_cons.mp hd with h1 | h2
          · subst h1; exact hc
          · exact hall d h2)
      rw [List.cons_append, List.dropWhile_cons_of_pos hc, List.dropWhile_cons_of_pos hc, ih h']
    · rw [List.cons_append, List.dropWhile_cons_of_neg hc, List.dropWhile_cons_of_neg hc,
        List.cons_append]

theorem trim_takeNC_strip_trailing (x : List Char) :
    trim_chars ((strip_trailing x).takeWhile (· ≠ ',')) =
    trim_chars (x.takeWhile (· ≠ ',')) := by
  obtain ⟨b, hx, hb⟩ := strip_trailing_decomp x
  by_cases hall : ∀ c ∈ strip_trailing x, (decide (c ≠ ',')) = true
  · have h1 : x.takeWhile (· ≠ ',') = strip_trailing x ++ b := by
      conv_lhs => rw [hx]
      rw [List.takeWhile_append_of_pos hall,
        List.takeWhile_eq_self_iff.mpr (fun c hc => sp_ne_comma (hb c hc))]
    have h2 : (strip_trailing x).takeWhile (· ≠ ',') = strip_trailing x :=
      List.takeWhile_eq_self_iff.mpr hall
    rw [h1, h2]
    unfold trim_chars
    by_cases hasp : ∀ c ∈ strip_trailing x, is_py_space c = true
    · rw [dropWhile_all_spaces _ hasp, dropWhile_all_spaces _ (by
        intro c hc
        rcases List.mem_append.mp hc with h1 | h2
        · exact hasp c h1
        · exact hb c h2)]
    · rw [dropWhile_append_not_all _ _ _ hasp, strip_trailing_append _ b hb]
  · have h2 : x.takeWhile (· ≠ ',') = (strip_trailing x).takeWhile (· ≠ ',') := by
      conv_lhs => rw [hx]
      rw [takeWhile_append_not_all _ _ _ hall]
    rw [h2]

theorem trim_takeNC_trim (m : List Char) :
    trim_chars ((trim_chars m).takeWhile (· ≠ ',')) =
    trim_chars (m.takeWhile (· ≠ ',')) := by
  have h0 : trim_chars m = strip_trailing (m.dropWhile is_py_space) := rfl
  rw [h0, trim_takeNC_strip_trailing (m.dropWhile is_py_space),
    takeWhile_dropWhile_comm _ _ (fun c hc => sp_ne_comma hc) m]
  show trim_chars ((m.takeWhile (· ≠ ',')).dropWhile is_py_space) = _
  unfold trim_chars
  rw [dropWhile_idem]

theorem norm_name_eq (t : String) :
    norm_name t =
      ⟨trim_chars ((trim_chars (t.data.map lower_char)).takeWhile (· ≠ ','))⟩ := rfl

theorem norm_name_first_comma (s : String) :
    norm_name (first_comma_comp s) = norm_name s := by
  rw [norm_name_eq, norm_name_eq]
  congr 1
  have hd : (first_comma_comp s).data = s.data.takeWhile (· ≠ ',') := rfl
  rw [hd]
  calc trim_chars ((trim_chars ((s.data.takeWhile (· ≠ ',')).map lower_char)).takeWhile (· ≠ ','))
      = trim_chars (((s.data.takeWhile (· ≠ ',')).map lower_char).takeWhile (· ≠ ',')) :=
        trim_takeNC_trim _
    _ = trim_chars (((s.data.takeWhile (· ≠ ',')).takeWhile (· ≠ ',')).map lower_char) := by
        rw [takeNC_map_lower]
    _ = trim_chars ((s.data.takeWhile (· ≠ ',')).map lower_char) := by
        rw [takeWhile_idem]
    _ = trim_chars ((s.data.map lower_char).takeWhile (· ≠ ',')) := by
        rw [← takeNC_map_lower]
    _ = trim_chars ((trim_chars (s.data.map lower_char)).takeWhile (· ≠ ',')) :=
        (trim_takeNC_trim _).symm

theorem norm_name_of_lower_eq {a b : String} (h : py_lower a = py_lower b) :
    norm_name a = norm_name b := by
  rw [norm_name_eq, norm_name_eq]
  have : a.data.map lower_char = b.data.map lower_char := congrArg String.data h
  rw [this]

/-! ### Stable-sort lemmas for `py_sorted` -/

theorem insert_by_perm {α : Type} (key : α → ℚ) (a : α) (l : List α) :
    (insert_by key a l).Perm (a :: l) := by
  induction l with
  | nil => exact List.Perm.refl _
  | cons b bs ih =>
    unfold insert_by
    by_cases h : key b ≤ key a
    · rw [if_pos h]
      exact (ih.cons b).trans (List.Perm.swap a b bs)
    · rw [if_neg h]

theorem py_sorted_perm {α : Type} (key : α → ℚ) (l : List α) :
    (py_sorted key l).Perm l := by
  suffices h : ∀ acc : List α, (l.foldl (fun acc x => insert_by key x acc) acc).Perm (l ++ acc) by
    simpa using h []
  induction l with
  | nil => intro acc; simp
  | cons x xs ih =>
    intro acc
    have h1 := ih (insert_by key x acc)
    have h2 : (insert_by key x acc).Perm (x :: acc) := insert_by_perm key x acc
    exact h1.trans ((List.Perm.append_left xs h2).trans List.perm_middle)

theorem insert_by_sorted {α : Type} (key : α → ℚ) (a : α) (l : List α)
    (h : l.Pairwise (fun x y => key x ≤ key y)) :
    (insert_by key a l).Pairwise (fun x y => key x ≤ key y) := by
  induction l with
  | nil => simp [insert_by]
  | cons b bs ih =>
    rcases List.pairwise_cons.mp h with ⟨hb, hbs⟩
    unfold insert_by
    by_cases hle : key b ≤ key a
    · rw [if_pos hle]
      refine List.pairwise_cons.mpr ⟨?_, ih hbs⟩
      intro y hy
      have hmem := (insert_by_perm key a bs).mem_iff.mp hy
      rcases List.mem_cons.mp hmem with h1 | h2
      · subst h1; exact hle
      · exact hb y h2
    · rw [if_neg hle]
      push_neg at hle
      refine List.pairwise_cons.mpr ⟨?_, h⟩
      intro y hy
      rcases List.mem_cons.mp hy with h1 | h2
      · subst h1; exact le_of_lt hle
      · exact le_trans (le_of_lt hle) (hb y h2)

theorem py_sorted_sorted {α : Type} (key : α → ℚ) (l : List α) :
    (py_sorted key l).Pairwise (fun x y => key x ≤ key y) := by
  suffices h : ∀ acc : List α, acc.Pairwise (fun x y => key x ≤ key y) →
      (l.foldl (fun acc x => insert_by key x acc) acc).Pairwise (fun x y => key x ≤ key y) by
    exact h [] List.Pairwise.nil
  induction l with
  | nil => intro acc hacc; exact hacc
  | cons x xs ih =>
    intro acc hacc
    exact ih (insert_by key x acc) (insert_by_sorted key x acc hacc)

theorem forall₂_mem_right {α β : Type} {S : α → β → Prop} {l : List α} {ys : List β} {b : β}
    (hf : List.Forall₂ S l ys) (hb : b ∈ ys) : ∃ a ∈ l, S a b := by
  induction hf with
  | nil => cases hb
  | cons hs hf ih =>
    rcases List.mem_cons.mp hb with h1 | h2
    · subst h1; exact ⟨_, List.mem_cons_self _ _, hs⟩
    · obtain ⟨a, ha, hs'⟩ := ih h2
      exact ⟨a, List.mem_cons_of_mem _ ha, hs'⟩

theorem pairwise_of_forall₂ {α β : Type} {S : α → β → Prop} {R : α → α → Prop}
    {R' : β → β → Prop}
    (htr : ∀ a b a' b', S a b → S a' b' → R a a' → R' b b') :
    ∀ {l : List α} {ys : List β}, List.Forall₂ S l ys → l.Pairwise R → ys.Pairwise R' := by
  intro l ys hf
  induction hf with
  | nil => intro _; exact List.Pairwise.nil
  | cons hs hf ih =>
    intro hp
    rcases List.pairwise_cons.mp hp with ⟨hhead, htail⟩
    refine List.pairwise_cons.mpr ⟨?_, ih htail⟩
    intro b' hb'
    obtain ⟨a', ha', hs'⟩ := forall₂_mem_right hf hb'
    exact htr _ _ _ _ hs hs' (hhead a' ha')

theorem pairwise_of_perm {α : Type} {R : α → α → Prop} (hsym : ∀ a b, R a b → R b a)
    {l l' : List α} (hp : l.Perm l') (h : l.Pairwise R) : l'.Pairwise R :=
  (hp.pairwise_iff (fun h' => hsym _ _ h')).mp h

/-! ### Association-list facts for the dedup fold -/

theorem assoc_find_eq_none {α : Type} (m : List (String × α)) (k : String) :
    assoc_find m k = none ↔ k ∉ m.map (·.1) := by
  unfold assoc_find
  rw [Option.map_eq_none', List.find?_eq_none]
  constructor
  · intro h hk
    obtain ⟨kv, hkv, he⟩ := List.mem_map.mp hk
    have h2 := h kv hkv
    simp only [decide_eq_true_eq] at h2
    exact h2 he
  · intro h kv hkv
    simp only [decide_eq_true_eq]
    intro he
    exact h (List.mem_map.mpr ⟨kv, hkv, he⟩)

theorem assoc_find_mem {α : Type} {m : List (String × α)} {k : String} {q : α}
    (h : assoc_find m k = some q) : (k, q) ∈ m := by
  unfold assoc_find at h
  obtain ⟨kv, hfind, he⟩ := Option.map_eq_some'.mp h
  have h1 : kv.1 = k := by simpa using List.find?_some hfind
  have h2 : kv ∈ m := List.mem_of_find?_eq_some hfind
  have h3 : kv = (k, q) := by
    cases kv
    simp_all
  rwa [← h3]

theorem keys_pairwise_iff {α : Type} (m : List (String × α)) :
    (m.map (·.1)).Nodup ↔ m.Pairwise (fun a b => a.1 ≠ b.1) := by
  unfold List.Nodup
  rw [List.pairwise_map]

theorem key_unique {α : Type} {m : List (String × α)} (hnd : (m.map (·.1)).Nodup)
    {kv kv' : String × α} (h1 : kv ∈ m) (h2 : kv' ∈ m) (he : kv.1 = kv'.1) :
    kv = kv' := by
  by_contra hne
  have hsym : Symmetric (fun a b : String × α => a.1 ≠ b.1) := by
    intro x y hxy h
    exact hxy h.symm
  exact ((keys_pairwise_iff m).mp hnd).forall hsym h1 h2 hne he

theorem set_assoc_keys {α : Type} (m : List (String × α)) (k : String) (p : α)
    (hk : k ∈ m.map (·.1)) :
    (set_assoc m k p).map (·.1) = m.map (·.1) := by
  induction m with
  | nil => cases hk
  | cons kv rest ih =>
    unfold set_assoc
    by_cases he : kv.1 = k
    · rw [if_pos he]
      simp [he]
    · rw [if_neg he]
      have hk' : k ∈ rest.map (·.1) := by
        rcases List.mem_cons.mp hk with h1 | h2
        · exact absurd h1.symm he
        · exact h2
      simp [ih hk']

theorem set_assoc_mem {α : Type} {m : List (String × α)} {k : String} {p : α}
    (hnd : (m.map (·.1)).Nodup) :
    ∀ kv ∈ set_assoc m k p, kv = (k, p) ∨ (kv ∈ m ∧ kv.1 ≠ k) := by
  induction m with
  | nil =>
    intro kv hkv
    unfold set_assoc at hkv
    left
    simpa using hkv
  | cons hd rest ih =>
    rw [List.map_cons, List.nodup_cons] at hnd
    obtain ⟨hhd, hnd'⟩ := hnd
    intro kv hkv
    unfold set_assoc at hkv
    by_cases he : hd.1 = k
    · rw [if_pos he] at hkv
      rcases List.mem_cons.mp hkv with h1 | h2
      · left; exact h1
      · right
        refine ⟨List.mem_cons_of_mem _ h2, ?_⟩
        intro hk
        rw [← he] at hk
        exact hhd (List.mem_map.mpr ⟨kv, h2, hk⟩)
    · rw [if_neg he] at hkv
      rcases List.mem_cons.mp hkv with h1 | h2
      · right
        subst h1
        exact ⟨List.mem_cons_self _ _, fun hk => he hk⟩
      · rcases ih hnd' kv h2 with h3 | ⟨h4, h5⟩
        · left; exact h3
        · right; exact ⟨List.mem_cons_of_mem _ h4, h5⟩

/-! ### The `best_by_name` invariant -/

/-- Branch equations for `best_step`. -/
theorem best_step_skip {hav : ℚ → ℚ → ℚ → ℚ → ℚ} {c_lat c_lng : ℚ}
    {m : List (String × CPoi)} {p : RawPoi} (hk : norm_name p.name = "") :
    best_step hav c_lat c_lng m p = m := by
  simp [best_step, hk]

theorem best_step_new {hav : ℚ → ℚ → ℚ → ℚ → ℚ} {c_lat c_lng : ℚ}
    {m : List (String × CPoi)} {p : RawPoi} (hk : norm_name p.name ≠ "")
    (hfind : assoc_find m (norm_name p.name) = none) :
    best_step hav c_lat c_lng m p =
      m ++ [(norm_name p.name, mk_cpoi hav c_lat c_lng p)] := by
  simp [best_step, hk, hfind]

theorem best_step_update {hav : ℚ → ℚ → ℚ → ℚ → ℚ} {c_lat c_lng : ℚ}
    {m : List (String × CPoi)} {p : RawPoi} {q : CPoi} (hk : norm_name p.name ≠ "")
    (hfind : assoc_find m (norm_name p.name) = some q)
    (hlt : (mk_cpoi hav c_lat c_lng p).d_center_km < q.d_center_km) :
    best_step hav c_lat c_lng m p =
      set_assoc m (norm_name p.name) (mk_cpoi hav c_lat c_lng p) := by
  simp [best_step, hk, hfind, hlt]

theorem best_step_keep {hav : ℚ → ℚ → ℚ → ℚ → ℚ} {c_lat c_lng : ℚ}
    {m : List (String × CPoi)} {p : RawPoi} {q : CPoi} (hk : norm_name p.name ≠ "")
    (hfind : assoc_find m (norm_name p.name) = some q)
    (hlt : ¬ (mk_cpoi hav c_lat c_lng p).d_center_km < q.d_center_km) :
    best_step hav c_lat c_lng m p = m := by
  simp [best_step, hk, hfind, hlt]

/-- Invariant of the `best_by_name` fold after processing `proc`. -/
def bbn_inv (hav : ℚ → ℚ → ℚ → ℚ → ℚ) (c_lat c_lng : ℚ)
    (m : List (String × CPoi)) (proc : List RawPoi) : Prop :=
  (m.map (·.1)).Nodup ∧
  (∀ kv ∈ m, kv.1 = norm_name kv.2.name ∧ kv.1 ≠ "") ∧
  (∀ kv ∈ m, ∃ r ∈ proc, kv.2 = mk_cpoi hav c_lat c_lng r) ∧
  (∀ kv ∈ m, ∀ r ∈ proc, norm_name r.name = kv.1 →
     kv.2.d_center_km ≤ hav c_lat c_lng r.lat r.lng) ∧
  (∀ r ∈ proc, norm_name r.name ≠ "" → norm_name r.name ∈ m.map (·.1))

theorem bbn_step {hav : ℚ → ℚ → ℚ → ℚ → ℚ} {c_lat c_lng : ℚ}
    {m : List (String × CPoi)} {proc : List RawPoi} (p : RawPoi)
    (h : bbn_inv hav c_lat c_lng m proc) :
    bbn_inv hav c_lat c_lng (best_step hav c_lat c_lng m p) (proc ++ [p]) := by
  obtain ⟨hnd, hkey, hfrom, hmin, hcov⟩ := h
  by_cases hk : norm_name p.name = ""
  · rw [best_step_skip hk]
    refine ⟨hnd, hkey, ?_, ?_, ?_⟩
    · intro kv hkv
      obtain ⟨r, hr, he⟩ := hfrom kv hkv
      exact ⟨r, List.mem_append_left _ hr, he⟩
    · intro kv hkv r hr hkeq
      rcases List.mem_append.mp hr with h1 | h2
      · exact hmin kv hkv r h1 hkeq
      · have hrp : r = p := by simpa using h2
        subst hrp
        rw [hk] at hkeq
        exact absurd hkeq.symm (hkey kv hkv).2
    · intro r hr hne
      rcases List.mem_append.mp hr with h1 | h2
      · exact hcov r h1 hne
      · have hrp : r = p := by simpa using h2
        subst hrp
        exact absurd hk hne
  · cases hfind : assoc_find m (norm_name p.name) with
    | none =>
      rw [best_step_new hk hfind]
      have hknot : norm_name p.name ∉ m.map (·.1) := (assoc_find_eq_none _ _).mp hfind
      refine ⟨?_, ?_, ?_, ?_, ?_⟩
      · rw [List.map_append]
        simp only [List.map_cons, List.map_nil]
        rw [List.nodup_append]
        exact ⟨hnd, List.nodup_singleton _, by simpa using hknot⟩
      · intro kv hkv
        rcases List.mem_append.mp hkv with h1 | h2
        · exact hkey kv h1
        · have : kv = (norm_name p.name, mk_cpoi hav c_lat c_lng p) := by simpa using h2
          subst this
          exact ⟨rfl, hk⟩
      · intro kv hkv
        rcases List.mem_append.mp hkv with h1 | h2
        · obtain ⟨r, hr, he⟩ := hfrom kv h1
          exact ⟨r, List.mem_append_left _ hr, he⟩
        · have : kv = (norm_name p.name, mk_cpoi hav c_lat c_lng p) := by simpa using h2
          subst this
          exact ⟨p, List.mem_append_right _ (by simp), rfl⟩
      · intro kv hkv r hr hkeq
        rcases List.mem_append.mp hkv with h1 | h2
        · rcases List.mem_append.mp hr with hr1 | hr2
          · exact hmin kv h1 r hr1 hkeq
          · have hrp : r = p := by simpa using hr2
            subst hrp
            exfalso
            apply hknot
            rw [hkeq]
            exact List.mem_map.mpr ⟨kv, h1, rfl⟩
        · have hkv2 : kv = (norm_name p.name, mk_cpoi hav c_lat c_lng p) := by simpa using h2
          subst hkv2
          rcases List.mem_append.mp hr with hr1 | hr2
          · exfalso
            apply hknot
            have := hcov r hr1 (by rw [hkeq]; exact hk)
            rwa [hkeq] at this
          · have hrp : r = p := by simpa using hr2
            subst hrp
            exact le_refl _
      · intro r hr hne
        rcases List.mem_append.mp hr with h1 | h2
        · have := hcov r h1 hne
          rw [List.map_append]
          exact List.mem_append_left _ this
        · have hrp : r = p := by simpa using h2
          subst hrp
          rw [List.map_append]
          exact List.mem_append_right _ (by simp)
    | some q =>
      have hqmem : (norm_name p.name, q) ∈ m := assoc_find_mem hfind
      have hkmem : norm_name p.name ∈ m.map (·.1) :=
        List.mem_map.mpr ⟨_, hqmem, rfl⟩
      by_cases hlt : (mk_cpoi hav c_lat c_lng p).d_center_km < q.d_center_km
      · rw [best_step_update hk hfind hlt]
        have hkeys : (set_assoc m (norm_name p.name) (mk_cpoi hav c_lat c_lng p)).map (·.1)
            = m.map (·.1) := set_assoc_keys m _ _ hkmem
        refine ⟨by rw [hkeys]; exact hnd, ?_, ?_, ?_, ?_⟩
        · intro kv hkv
          rcases set_assoc_mem hnd kv hkv with h1 | ⟨h2, _⟩
          · subst h1; exact ⟨rfl, hk⟩
          · exact hkey kv h2
        · intro kv hkv
          rcases set_assoc_mem hnd kv hkv with h1 | ⟨h2, _⟩
          · subst h1
            exact ⟨p, List.mem_append_right _ (by simp), rfl⟩
          · obtain ⟨r, hr, he⟩ := hfrom kv h2
            exact ⟨r, List.mem_append_left _ hr, he⟩
        · intro kv hkv r hr hkeq
          rcases set_assoc_mem hnd kv hkv with h1 | ⟨h2, hne2⟩
          · subst h1
            rcases List.mem_append.mp hr with hr1 | hr2
            · have hq := hmin _ hqmem r hr1 hkeq
              exact le_trans (le_of_lt hlt) hq
            · have hrp : r = p := by simpa using hr2
              subst hrp
              exact le_refl _
          · rcases List.mem_append.mp hr with hr1 | hr2
            · exact hmin kv h2 r hr1 hkeq
            · have hrp : r = p := by simpa using hr2
              subst hrp
              exact absurd hkeq.symm hne2
        · intro r hr hne
          rw [hkeys]
          rcases List.mem_append.mp hr with h1 | h2
          · exact hcov r h1 hne
          · have hrp : r = p := by simpa using h2
            subst hrp
            exact hkmem
      · rw [best_step_keep hk hfind hlt]
        refine ⟨hnd, hkey, ?_, ?_, ?_⟩
        · intro kv hkv
          obtain ⟨r, hr, he⟩ := hfrom kv hkv
          exact ⟨r, List.mem_append_left _ hr, he⟩
        · intro kv hkv r hr hkeq
          rcases List.mem_append.mp hr with h1 | h2
          · exact hmin kv hkv r h1 hkeq
          · have hrp : r = p := by simpa using h2
            subst hrp
            have hkvq : kv = (norm_name r.name, q) :=
              key_unique hnd hkv hqmem hkeq.symm
            rw [hkvq]
            push_neg at hlt
            exact hlt
        · intro r hr hne
          rcases List.mem_append.mp hr with h1 | h2
          · exact hcov r h1 hne
          · have hrp : r = p := by simpa using h2
            subst hrp
            exact hkmem

theorem bbn_fold (hav : ℚ → ℚ → ℚ → ℚ → ℚ) (c_lat c_lng : ℚ) :
    ∀ (raw : List RawPoi) (m : List (String × CPoi)) (proc : List RawPoi),
      bbn_inv hav c_lat c_lng m proc →
      bbn_inv hav c_lat c_lng (raw.foldl (best_step hav c_lat c_lng) m) (proc ++ raw)
  | [], m, proc, h => by simpa using h
  | p :: raw, m, proc, h => by
    have h1 := bbn_step p h
    have h2 := bbn_fold hav c_lat c_lng raw _ _ h1
    simpa using h2

theorem best_by_name_inv (hav : ℚ → ℚ → ℚ → ℚ → ℚ) (c_lat c_lng : ℚ) (raw : List RawPoi) :
    bbn_inv hav c_lat c_lng (best_by_name hav c_lat c_lng raw) raw := by
  have h0 : bbn_inv hav c_lat c_lng [] [] := by
    refine ⟨List.nodup_nil, ?_, ?_, ?_, ?_⟩
    · intro kv hkv; cases hkv
    · intro kv hkv; cases hkv
    · intro kv hkv; cases hkv
    · intro r hr; cases hr
  simpa [best_by_name] using bbn_fold hav c_lat c_lng raw [] [] h0

theorem dedup_pois_pairwise (hav : ℚ → ℚ → ℚ → ℚ → ℚ) (c_lat c_lng : ℚ) (raw : List RawPoi) :
    (dedup_pois hav c_lat c_lng raw).Pairwise
      (fun a b => norm_name a.name ≠ norm_name b.name) := by
  obtain ⟨hnd, hkey, _, _, _⟩ := best_by_name_inv hav c_lat c_lng raw
  have hp := (keys_pairwise_iff _).mp hnd
  have hvals : ((best_by_name hav c_lat c_lng raw).map (·.2)).Pairwise
      (fun a b => norm_name a.name ≠ norm_name b.name) := by
    rw [List.pairwise_map]
    exact hp.imp_of_mem (fun {a b} ha hb hne => by
      rw [← (hkey a ha).1, ← (hkey b hb).1]; exact hne)
  exact pairwise_of_perm (fun a b h h' => h h'.symm)
    (py_sorted_perm _ _).symm hvals

theorem dedup_pois_sorted (hav : ℚ → ℚ → ℚ → ℚ → ℚ) (c_lat c_lng : ℚ) (raw : List RawPoi) :
    (dedup_pois hav c_lat c_lng raw).Pairwise
      (fun x y => py_round x.d_center_km 3 ≤ py_round y.d_center_km 3) :=
  py_sorted_sorted _ _

theorem dedup_pois_min (hav : ℚ → ℚ → ℚ → ℚ → ℚ) (c_lat c_lng : ℚ) (raw : List RawPoi) :
    ∀ p ∈ dedup_pois hav c_lat c_lng raw,
      (∃ r ∈ raw, p = mk_cpoi hav c_lat c_lng r) ∧
      (∀ r ∈ raw, norm_name r.name = norm_name p.name →
        p.d_center_km ≤ hav c_lat c_lng r.lat r.lng) := by
  intro p hp
  have hmem : p ∈ (best_by_name hav c_lat c_lng raw).map (·.2) :=
    (py_sorted_perm _ _).mem_iff.mp hp
  obtain ⟨kv, hkv, he⟩ := List.mem_map.mp hmem
  obtain ⟨hnd, hkey, hfrom, hmin, hcov⟩ := best_by_name_inv hav c_lat c_lng raw
  constructor
  · obtain ⟨r, hr, he2⟩ := hfrom kv hkv
    exact ⟨r, hr, by rw [← he, he2]⟩
  · intro r hr hkeq
    have hk1 : norm_name r.name = kv.1 := by
      rw [hkeq, (hkey kv hkv).1, he]
    have := hmin kv hkv r hr hk1
    rw [← he]
    exact this

/-! ### Membership invariant for `_diversify` -/

/-- All lists of a `DivState` satisfy `P` elementwise. -/
def st_all (P : Entry → Prop) (st : DivState) : Prop :=
  (∀ e ∈ st.bHistory, P e) ∧ (∀ e ∈ st.bLandmarks, P e) ∧ (∀ e ∈ st.bMuseums, P e) ∧
  (∀ e ∈ st.bFood, P e) ∧ (∀ e ∈ st.bCafes, P e) ∧ (∀ e ∈ st.bParks, P e) ∧
  (∀ e ∈ st.other, P e) ∧ (∀ e ∈ st.out, P e)

theorem try_take_all {P : Entry → Prop} (n : ℕ) {bucket out : List Entry}
    (hb : ∀ e ∈ bucket, P e) (ho : ∀ e ∈ out, P e) :
    (∀ e ∈ (try_take n bucket out).1, P e) ∧ (∀ e ∈ (try_take n bucket out).2, P e) := by
  unfold try_take
  by_cases h : n ≤ out.length
  · rw [if_pos h]
    exact ⟨hb, ho⟩
  · rw [if_neg h]
    cases bucket with
    | nil => exact ⟨hb, ho⟩
    | cons x xs =>
      refine ⟨fun e he => hb e (List.mem_cons_of_mem _ he), fun e he => ?_⟩
      rcases List.mem_append.mp he with h1 | h2
      · exact ho e h1
      · have : e = x := by simpa using h2
        subst this
        exact hb e (List.mem_cons_self _ _)

theorem div_pass_all {P : Entry → Prop} {n : ℕ} {st : DivState} (h : st_all P st) :
    st_all P (div_pass n st) := by
  obtain ⟨h1, h2, h3, h4, h5, h6, h7, h8⟩ := h
  unfold div_pass
  have s1 := try_take_all n h1 h8
  have s2 := try_take_all n h2 s1.2
  have s3 := try_take_all n h3 s2.2
  have s4 := try_take_all n h4 s3.2
  have s5 := try_take_all n h5 s4.2
  have s6 := try_take_all n h6 s5.2
  exact ⟨s1.1, s2.1, s3.1, s4.1, s5.1, s6.1, h7, s6.2⟩

theorem div_step_all {P : Entry → Prop} {n : ℕ} {st : DivState} (h : st_all P st) :
    st_all P (div_step n st) := by
  have hp := div_pass_all (n := n) h
  unfold div_step
  obtain ⟨h1, h2, h3, h4, h5, h6, h7, h8⟩ := hp
  cases hother : (div_pass n st).other with
  | nil =>
    simp only [hother]
    by_cases hbr : n ≤ (div_pass n st).out.length
    · rw [if_pos hbr]
      exact ⟨h1, h2, h3, h4, h5, h6, h7, h8⟩
    · rw [if_neg hbr]
      by_cases hend : ¬ any_buckets (div_pass n st) ∧ ([] : List Entry) ≠ []
      · exact absurd rfl hend.2
      · rw [if_neg hend]
        exact ⟨h1, h2, h3, h4, h5, h6, h7, h8⟩
  | cons o rest =>
    have hoP : P o := h7 o (by rw [hother]; exact List.mem_cons_self _ _)
    have hrestP : ∀ e ∈ rest, P e := fun e he => h7 e (by rw [hother]; exact List.mem_cons_of_mem _ he)
    simp only [hother]
    by_cases hlt : (div_pass n st).out.length < n
    · rw [if_pos hlt]
      set st1 : DivState := { div_pass n st with out := (div_pass n st).out ++ [o], other := rest }
      have h8' : ∀ e ∈ st1.out, P e := by
        intro e he
        rcases List.mem_append.mp he with ha | hb
        · exact h8 e ha
        · have : e = o := by simpa using hb
          subst this
          exact hoP
      by_cases hbr : n ≤ st1.out.length
      · rw [if_pos hbr]
        exact ⟨h1, h2, h3, h4, h5, h6, hrestP, h8'⟩
      · rw [if_neg hbr]
        by_cases hend : ¬ any_buckets st1 ∧ st1.other ≠ []
        · rw [if_pos hend]
          refine ⟨h1, h2, h3, h4, h5, h6, ?_, ?_⟩
          · intro e he
            exact hrestP e (List.mem_of_mem_drop he)
          · intro e he
            rcases List.mem_append.mp he with ha | hb
            · exact h8' e ha
            · exact hrestP e (List.mem_of_mem_take hb)
        · rw [if_neg hend]
          exact ⟨h1, h2, h3, h4, h5, h6, hrestP, h8'⟩
    · rw [if_neg hlt]
      by_cases hbr : n ≤ (div_pass n st).out.length
      · rw [if_pos hbr]
        exact ⟨h1, h2, h3, h4, h5, h6, h7, h8⟩
      · exact absurd (Nat.lt_of_not_le hbr) hlt

theorem all_append_one {P : Entry → Prop} {l : List Entry} {it : Entry}
    (hl : ∀ e ∈ l, P e) (hit : P it) : ∀ e ∈ l ++ [it], P e := by
  intro e he
  rcases List.mem_append.mp he with h1 | h2
  · exact hl e h1
  · have : e = it := by simpa using h2
    subst this
    exact hit

theorem div_init_step_all {P : Entry → Prop} {st : DivState} {it : Entry}
    (h : st_all P st) (hit : P it) : st_all P (div_init_step st it) := by
  obtain ⟨a1, a2, a3, a4, a5, a6, a7, a8⟩ := h
  unfold div_init_step
  by_cases h1 : it.bucket = "history"
  · rw [if_pos h1]; exact ⟨all_append_one a1 hit, a2, a3, a4, a5, a6, a7, a8⟩
  · rw [if_neg h1]
    by_cases h2 : it.bucket = "landmarks"
    · rw [if_pos h2]; exact ⟨a1, all_append_one a2 hit, a3, a4, a5, a6, a7, a8⟩
    · rw [if_neg h2]
      by_cases h3 : it.bucket = "museums"
      · rw [if_pos h3]; exact ⟨a1, a2, all_append_one a3 hit, a4, a5, a6, a7, a8⟩
      · rw [if_neg h3]
        by_cases h4 : it.bucket = "food"
        · rw [if_pos h4]; exact ⟨a1, a2, a3, all_append_one a4 hit, a5, a6, a7, a8⟩
        · rw [if_neg h4]
          by_cases h5 : it.bucket = "cafes"
          · rw [if_pos h5]; exact ⟨a1, a2, a3, a4, all_append_one a5 hit, a6, a7, a8⟩
          · rw [if_neg h5]
            by_cases h6 : it.bucket = "parks"
            · rw [if_pos h6]; exact ⟨a1, a2, a3, a4, a5, all_append_one a6 hit, a7, a8⟩
            · rw [if_neg h6]
              exact ⟨a1, a2, a3, a4, a5, a6, all_append_one a7 hit, a8⟩

theorem foldl_div_init_all {P : Entry → Prop} :
    ∀ (l : List Entry) (st : DivState), st_all P st → (∀ e ∈ l, P e) →
      st_all P (l.foldl div_init_step st)
  | [], st, h, _ => h
  | it :: l, st, h, hl =>
    foldl_div_init_all l _ (div_init_step_all h (hl it (List.mem_cons_self _ _)))
      (fun e he => hl e (List.mem_cons_of_mem _ he))

theorem div_loop_all {P : Entry → Prop} (n : ℕ) :
    ∀ (fuel : ℕ) (st : DivState), st_all P st → ∀ e ∈ div_loop n fuel st, P e
  | 0, st, h => h.2.2.2.2.2.2.2
  | fuel + 1, st, h => by
    unfold div_loop
    by_cases hc : st.out.length < n ∧ (any_buckets st ∨ st.other ≠ [])
    · rw [if_pos hc]
      exact div_loop_all n fuel _ (div_step_all h)
    · rw [if_neg hc]
      exact h.2.2.2.2.2.2.2

theorem diversify_mem (items : List Entry) (n : ℕ) : ∀ e ∈ diversify items n, e ∈ items := by
  have h0 : st_all (· ∈ items) ⟨[], [], [], [], [], [], [], []⟩ := by
    refine ⟨?_, ?_, ?_, ?_, ?_, ?_, ?_, ?_⟩ <;>
      exact fun e he => absurd he (List.not_mem_nil e)
  exact div_loop_all n _ _ (foldl_div_init_all items _ h0 (fun e he => he))

/-! ### Selection and allocation invariants -/

theorem pick_items_spec (n : ℕ) (used : List (String × ℚ × ℚ)) :
    ∀ (l : List Entry) (picked : List (String × ℚ × ℚ)) (acc : List Entry),
      acc.Pairwise (fun a b => entry_key a ≠ entry_key b) →
      (∀ e ∈ acc, entry_key e ∈ picked ∧ entry_key e ∉ used) →
      (pick_items n used picked acc l).1.Pairwise (fun a b => entry_key a ≠ entry_key b) ∧
      (∀ e ∈ (pick_items n used picked acc l).1,
         entry_key e ∈ (pick_items n used picked acc l).2 ∧ entry_key e ∉ used) ∧
      (∀ e ∈ (pick_items n used picked acc l).1, e ∈ acc ∨ e ∈ l) := by
  intro l
  induction l with
  | nil =>
    intro picked acc hpw hinv
    refine ⟨hpw, ?_, ?_⟩
    · intro e he
      exact hinv e he
    · intro e he
      exact Or.inl he
  | cons it rest ih =>
    intro picked acc hpw hinv
    by_cases hmem : entry_key it ∈ used ∨ entry_key it ∈ picked
    · have hstep : pick_items n used picked acc (it :: rest) = pick_items n used picked acc rest := by
        simp [pick_items, hmem]
      rw [hstep]
      obtain ⟨c1, c2, c3⟩ := ih picked acc hpw hinv
      refine ⟨c1, c2, ?_⟩
      intro e he
      rcases c3 e he with h1 | h2
      · exact Or.inl h1
      · exact Or.inr (List.mem_cons_of_mem _ h2)
    · push_neg at hmem
      obtain ⟨hu, hp⟩ := hmem
      have hpw' : (acc ++ [it]).Pairwise (fun a b => entry_key a ≠ entry_key b) := by
        rw [List.pairwise_append]
        refine ⟨hpw, List.pairwise_singleton _ _, ?_⟩
        intro a ha b hb
        have : b = it := by simpa using hb
        subst this
        intro hk
        exact hp (hk ▸ (hinv a ha).1)
      have hinv' : ∀ e ∈ acc ++ [it],
          entry_key e ∈ picked ++ [entry_key it] ∧ entry_key e ∉ used := by
        intro e he
        rcases List.mem_append.mp he with h1 | h2
        · exact ⟨List.mem_append_left _ (hinv e h1).1, (hinv e h1).2⟩
        · have : e = it := by simpa using h2
          subst this
          exact ⟨List.mem_append_right _ (by simp), hu⟩
      by_cases hlen : n ≤ (acc ++ [it]).length
      · have hstep : pick_items n used picked acc (it :: rest) =
            (acc ++ [it], picked ++ [entry_key it]) := by
          simp only [pick_items]
          rw [if_neg (by push_neg; exact ⟨hu, hp⟩), if_pos hlen]
        rw [hstep]
        refine ⟨hpw', ?_, ?_⟩
        · intro e he
          exact hinv' e he
        · intro e he
          rcases List.mem_append.mp he with h1 | h2
          · exact Or.inl h1
          · have : e = it := by simpa using h2
            subst this
            exact Or.inr (List.mem_cons_self _ _)
      · have hstep : pick_items n used picked acc (it :: rest) =
            pick_items n used (picked ++ [entry_key it]) (acc ++ [it]) rest := by
          simp only [pick_items]
          rw [if_neg (by push_neg; exact ⟨hu, hp⟩), if_neg hlen]
        rw [hstep]
        obtain ⟨c1, c2, c3⟩ := ih (picked ++ [entry_key it]) (acc ++ [it]) hpw' hinv'
        refine ⟨c1, c2, ?_⟩
        intro e he
        rcases c3 e he with h1 | h2
        · rcases List.mem_append.mp h1 with h3 | h4
          · exact Or.inl h3
          · have : e = it := by simpa using h4
            subst this
            exact Or.inr (List.mem_cons_self _ _)
        · exact Or.inr (List.mem_cons_of_mem _ h2)

theorem ne_norm_symm :
    Symmetric (fun a b : Entry => norm_name a.name ≠ norm_name b.name) := by
  intro x y hxy h
  exact hxy h.symm

theorem pairwise_norm_of_key {pool items : List Entry}
    (hpw : pool.Pairwise (fun a b => norm_name a.name ≠ norm_name b.name))
    (hsub : ∀ e ∈ items, e ∈ pool)
    (hkey : items.Pairwise (fun a b => entry_key a ≠ entry_key b)) :
    items.Pairwise (fun a b => norm_name a.name ≠ norm_name b.name) := by
  refine hkey.imp_of_mem (fun {a b} ha hb hk => ?_)
  by_cases hab : a = b
  · subst hab
    exact absurd rfl hk
  · exact hpw.forall ne_norm_symm (hsub a ha) (hsub b hb) hab

/-- Joined items of an allocation. -/
def joined_items (plans : List DayPlan) : List ItinItem :=
  (plans.map (·.items)).join

theorem joined_items_nil : joined_items [] = [] := rfl

theorem joined_items_cons (d : DayPlan) (plans : List DayPlan) :
    joined_items (d :: plans) = d.items ++ joined_items plans := by
  simp [joined_items]

theorem alloc_days_spec (per_day : ℕ) :
    ∀ (days : List PyDate) (pool : List Entry) (used : List (String × ℚ × ℚ)),
      pool.Pairwise (fun a b => norm_name a.name ≠ norm_name b.name) →
      (joined_items (alloc_days per_day days pool used)).Pairwise
        (fun a b => norm_name a.name ≠ norm_name b.name) ∧
      (∀ it ∈ joined_items (alloc_days per_day days pool used),
         ∃ e ∈ pool, it = strip_bucket e ∧ entry_key e ∉ used) := by
  intro days
  induction days with
  | nil =>
    intro pool used hpw
    constructor
    · exact List.Pairwise.nil
    · intro it hit
      cases hit
  | cons day rest ih =>
    intro pool used hpw
    by_cases hpool : pool = []
    · have h0 : alloc_days per_day (day :: rest) pool used = [] := by
        simp [alloc_days, hpool]
      rw [h0]
      constructor
      · exact List.Pairwise.nil
      · intro it hit
        cases hit
    · set dv := diversify (pool.take (per_day * 4)) per_day with hdv
      set pr := pick_items per_day used [] [] dv with hprdef
      set used' := used ++ pr.2 with husd
      set pool' := pool.filter (fun e => entry_key e ∉ used') with hpl
      have h0 : alloc_days per_day (day :: rest) pool used =
          if pr.1 = [] then alloc_days per_day rest pool' used'
          else { date := isoformat day, items := pr.1.map strip_bucket } ::
            alloc_days per_day rest pool' used' := by
        simp only [alloc_days]
        rw [if_neg hpool]
      obtain ⟨p1, p2, p3⟩ := pick_items_spec per_day used dv [] [] List.Pairwise.nil
        (by intro e he; cases he)
      have hitems_mem : ∀ e ∈ pr.1, e ∈ pool := by
        intro e he
        rcases p3 e he with h1 | h2
        · cases h1
        · exact List.mem_of_mem_take (diversify_mem _ _ e h2)
      have hitems_pw := pairwise_norm_of_key hpw hitems_mem p1
      have hpw' : pool'.Pairwise (fun a b => norm_name a.name ≠ norm_name b.name) :=
        hpw.sublist (List.filter_sublist _)
      obtain ⟨q1, q2⟩ := ih pool' used' hpw'
      rw [h0]
      by_cases hitems : pr.1 = []
      · rw [if_pos hitems]
        refine ⟨q1, ?_⟩
        intro it hit
        obtain ⟨e, he, heq, hkey⟩ := q2 it hit
        refine ⟨e, List.mem_of_mem_filter he, heq, ?_⟩
        intro hk
        exact hkey (List.mem_append_left _ hk)
      · rw [if_neg hitems, joined_items_cons]
        constructor
        · rw [List.pairwise_append]
          refine ⟨?_, q1, ?_⟩
          · rw [List.pairwise_map]
            exact hitems_pw
          · intro a' ha' b' hb'
            obtain ⟨a, ha, haeq⟩ := List.mem_map.mp ha'
            obtain ⟨e', he', hbeq, hkey'⟩ := q2 b' hb'
            subst haeq
            subst hbeq
            show norm_name a.name ≠ norm_name e'.name
            by_cases hae : a = e'
            · subst hae
              exfalso
              apply hkey'
              exact List.mem_append_right _ (p2 a ha).1
            · exact hpw.forall ne_norm_symm (hitems_mem a ha)
                (List.mem_of_mem_filter he') hae
        · intro it hit
          rcases List.mem_append.mp hit with h1 | h2
          · obtain ⟨a, ha, haeq⟩ := List.mem_map.mp h1
            exact ⟨a, hitems_mem a ha, haeq.symm, (p2 a ha).2⟩
          · obtain ⟨e, he, heq, hkey⟩ := q2 it h2
            refine ⟨e, List.mem_of_mem_filter he, heq, ?_⟩
            intro hk
            exact hkey (List.mem_append_left _ hk)

/-! ### Generic helpers for `Except` reasoning -/

theorem except_pure_eq {α : Type} (a : α) : (pure a : Except PyErr α) = .ok a := rfl

theorem except_bind_ok_iff {α β : Type} (x : Except PyErr α) (f : α → Except PyErr β) (b : β) :
    (x >>= f) = .ok b ↔ ∃ a, x = .ok a ∧ f a = .ok b := by
  cases x with
  | error e => simp [Bind.bind, Except.bind]
  | ok a => simp [Bind.bind, Except.bind]

/-! ### Enrichment and `build_itinerary` facts -/

theorem map_except_forall₂ {α β : Type} {f : α → Except PyErr β} :
    ∀ {l : List α} {ys : List β}, map_except f l = .ok ys →
      List.Forall₂ (fun a b => f a = .ok b) l ys := by
  intro l
  induction l with
  | nil =>
    intro ys h
    have h2 : ([] : List β) = ys := by simpa [map_except, except_pure_eq] using h
    subst h2
    exact List.Forall₂.nil
  | cons a l ih =>
    intro ys h
    simp only [map_except] at h
    rw [except_bind_ok_iff] at h
    obtain ⟨b, hb, h⟩ := h
    rw [except_bind_ok_iff] at h
    obtain ⟨r, hr, h⟩ := h
    have h2 : b :: r = ys := by simpa [except_pure_eq] using h
    subst h2
    exact List.Forall₂.cons hb (ih hr)

theorem enrich_poi_ok_name {w : World} {mode : String} {ola olo : Option ℚ}
    {p : CPoi} {e : Entry} (h : enrich_poi w mode ola olo p = .ok e) :
    e.name = first_comma_comp p.name := by
  unfold enrich_poi at h
  cases ola with
  | none =>
    cases olo with
    | none =>
      have h2 := (Except.ok.injEq _ _).mp h
      rw [← h2]
    | some b =>
      have h2 := (Except.ok.injEq _ _).mp h
      rw [← h2]
  | some a =>
    cases olo with
    | none =>
      have h2 := (Except.ok.injEq _ _).mp h
      rw [← h2]
    | some b =>
      rw [except_bind_ok_iff] at h
      obtain ⟨dt, hdt, h⟩ := h
      have h2 : _ = e := (Except.ok.injEq _ _).mp h
      rw [← h2]

theorem nearest20_pairwise {hav : ℚ → ℚ → ℚ → ℚ → ℚ} {ola olo : ℚ} {pois : List CPoi}
    (hpois : pois.Pairwise (fun a b => norm_name a.name ≠ norm_name b.name)) :
    (nearest20 hav ola olo pois).Pairwise
      (fun a b => norm_name a.name ≠ norm_name b.name) := by
  unfold nearest20
  apply List.Pairwise.sublist (List.take_sublist _ _)
  apply pairwise_of_perm ne_norm_symm (py_sorted_perm _ _).symm
  rw [List.pairwise_map]
  refine hpois.imp ?_
  intro a b hne
  show norm_name (first_comma_comp a.name) ≠ norm_name (first_comma_comp b.name)
  rw [norm_name_first_comma, norm_name_first_comma]
  exact hne

theorem nearest20_fields {hav : ℚ → ℚ → ℚ → ℚ → ℚ} {ola olo : ℚ} {pois : List CPoi} :
    ∀ e ∈ nearest20 hav ola olo pois,
      e.duration_min = none ∧ e.distance_km.isSome = true := by
  intro e he
  unfold nearest20 at he
  have h1 := (List.take_sublist _ _).subset he
  have h2 := (py_sorted_perm _ _).mem_iff.mp h1
  obtain ⟨p, hp, he2⟩ := List.mem_map.mp h2
  rw [← he2]
  exact ⟨rfl, rfl⟩

theorem apply_radius_filter_pairwise {hav : ℚ → ℚ → ℚ → ℚ → ℚ} {mode : String}
    {ola olo : ℚ} {enriched : List Entry} {pois : List CPoi}
    (hen : enriched.Pairwise (fun a b => norm_name a.name ≠ norm_name b.name))
    (hpois : pois.Pairwise (fun a b => norm_name a.name ≠ norm_name b.name)) :
    (apply_radius_filter hav mode ola olo enriched pois).Pairwise
      (fun a b => norm_name a.name ≠ norm_name b.name) := by
  unfold apply_radius_filter
  by_cases hf : enriched.filter (fun e => e.distance_km.getD 0 ≤ max_km_for mode) = []
  · rw [if_pos hf]
    exact nearest20_pairwise hpois
  · rw [if_neg hf]
    exact hen.sublist (List.filter_sublist _)

theorem entries_pairwise_of_pois {w : World} {mode : String} {ola olo : Option ℚ}
    {pois : List CPoi} {enriched : List Entry}
    (henr : map_except (enrich_poi w mode ola olo) pois = .ok enriched)
    (hpois : pois.Pairwise (fun a b => norm_name a.name ≠ norm_name b.name)) :
    enriched.Pairwise (fun a b => norm_name a.name ≠ norm_name b.name) := by
  refine pairwise_of_forall₂ ?_ (map_except_forall₂ henr) hpois
  intro a b a' b' hs hs' hne
  rw [enrich_poi_ok_name hs, enrich_poi_ok_name hs',
    norm_name_first_comma, norm_name_first_comma]
  exact hne

theorem build_itinerary_ok_elim {hav : ℚ → ℚ → ℚ → ℚ → ℚ} {w : World} {mode : String}
    {ola olo : Option ℚ} {c_lat c_lng : ℚ} {days : List PyDate} {per_day : ℕ}
    {raw : List RawPoi} {plans : List DayPlan}
    (h : build_itinerary hav w mode ola olo c_lat c_lng days per_day raw = .ok plans) :
    ∃ enriched,
      map_except (enrich_poi w mode ola olo) (dedup_pois hav c_lat c_lng raw) = .ok enriched ∧
      plans = alloc_days per_day days
        ((match ola, olo with
          | some a, some b =>
            apply_radius_filter hav mode a b enriched (dedup_pois hav c_lat c_lng raw)
          | _, _ => enriched).filter
          (fun e => entry_key e ∉ ([] : List (String × ℚ × ℚ)))) [] := by
  unfold build_itinerary at h
  rw [except_bind_ok_iff] at h
  obtain ⟨enriched, henr, h⟩ := h
  refine ⟨enriched, henr, ?_⟩
  have h2 := (Except.ok.injEq _ _).mp h
  exact h2.symm

theorem build_itinerary_pairwise {hav : ℚ → ℚ → ℚ → ℚ → ℚ} {w : World} {mode : String}
    {ola olo : Option ℚ} {c_lat c_lng : ℚ} {days : List PyDate} {per_day : ℕ}
    {raw : List RawPoi} {plans : List DayPlan}
    (h : build_itinerary hav w mode ola olo c_lat c_lng days per_day raw = .ok plans) :
    (joined_items plans).Pairwise (fun a b => norm_name a.name ≠ norm_name b.name) := by
  obtain ⟨enriched, henr, hplans⟩ := build_itinerary_ok_elim h
  have hpois := dedup_pois_pairwise hav c_lat c_lng raw
  have hen := entries_pairwise_of_pois henr hpois
  rw [hplans]
  cases ola with
  | none =>
    refine (alloc_days_spec per_day days _ [] ?_).1
    exact hen.sublist (List.filter_sublist _)
  | some a =>
    cases olo with
    | none =>
      refine (alloc_days_spec per_day days _ [] ?_).1
      exact hen.sublist (List.filter_sublist _)
    | some b =>
      refine (alloc_days_spec per_day days _ [] ?_).1
      exact (apply_radius_filter_pairwise hen hpois).sublist (List.filter_sublist _)

/-! ### `plan_trip` inversion lemmas -/

theorem plan_trip_start_end
    {hav : ℚ → ℚ → ℚ → ℚ → ℚ} {today : PyDate} {w : World}
    {destination : String} {s e : Option String} {interests : Option (List String)}
    {pace mode : String} {ola olo : Option ℚ} {lim : ℤ} {rad : ℚ} {res : TripResult}
    (h : plan_trip hav today w destination s e interests pace mode ola olo lim rad = .ok res) :
    res.start_date = isoformat (trip_dates today s e).1 ∧
    res.end_date = isoformat (trip_dates today s e).2 := by
  simp only [plan_trip] at h
  rw [except_bind_ok_iff] at h
  obtain ⟨center, hc, h⟩ := h
  cases center with
  | none =>
    simp only [except_pure_eq, Except.ok.injEq] at h
    subst h
    exact ⟨rfl, rfl⟩
  | some cc =>
    obtain ⟨c_lat, c_lng⟩ := cc
    rw [except_bind_ok_iff] at h
    obtain ⟨raw1, _, h⟩ := h
    rw [except_bind_ok_iff] at h
    obtain ⟨raw2, _, h⟩ := h
    rw [except_bind_ok_iff] at h
    obtain ⟨plan, _, h⟩ := h
    simp only [except_pure_eq, Except.ok.injEq] at h
    subst h
    exact ⟨rfl, rfl⟩

theorem plan_trip_ok_itinerary
    {hav : ℚ → ℚ → ℚ → ℚ → ℚ} {today : PyDate} {w : World}
    {destination : String} {s e : Option String} {interests : Option (List String)}
    {pace mode : String} {ola olo : Option ℚ} {lim : ℤ} {rad : ℚ} {res : TripResult}
    (h : plan_trip hav today w destination s e interests pace mode ola olo lim rad = .ok res) :
    res.itinerary = [] ∨
    ∃ c_lat c_lng raw,
      build_itinerary hav w mode ola olo c_lat c_lng
        (date_range (trip_dates today s e).1 (trip_dates today s e).2)
        (max 1 lim).toNat raw = .ok res.itinerary := by
  simp only [plan_trip] at h
  rw [except_bind_ok_iff] at h
  obtain ⟨center, hc, h⟩ := h
  cases center with
  | none =>
    left
    simp only [except_pure_eq, Except.ok.injEq] at h
    subst h
    rfl
  | some cc =>
    obtain ⟨c_lat, c_lng⟩ := cc
    rw [except_bind_ok_iff] at h
    obtain ⟨raw1, _, h⟩ := h
    rw [except_bind_ok_iff] at h
    obtain ⟨raw2, hraw2, h⟩ := h
    rw [except_bind_ok_iff] at h
    obtain ⟨plan, hplan, h⟩ := h
    simp only [except_pure_eq, Except.ok.injEq] at h
    subst h
    right
    exact ⟨c_lat, c_lng, raw2, hplan⟩

theorem max_km_nonneg (mode : String) : 0 ≤ max_km_for mode := by
  unfold max_km_for
  split
  · norm_num
  · split <;> norm_num

theorem apply_radius_filter_none_mem (hav : ℚ → ℚ → ℚ → ℚ → ℚ) (mode : String)
    (ola olo : ℚ) (enriched : List Entry) (pois : List CPoi) (e : Entry)
    (he : e ∈ enriched) (hdist : e.distance_km = none) :
    e ∈ apply_radius_filter hav mode ola olo enriched pois := by
  have hpred : e ∈ enriched.filter (fun e => e.distance_km.getD 0 ≤ max_km_for mode) := by
    rw [List.mem_filter]
    refine ⟨he, ?_⟩
    rw [hdist]
    simpa using max_km_nonneg mode
  unfold apply_radius_filter
  rw [if_neg (List.ne_nil_of_mem hpred)]
  exact hpred

theorem build_itinerary_radius {hav : ℚ → ℚ → ℚ → ℚ → ℚ} {w : World} {mode : String}
    {ola olo : ℚ} {c_lat c_lng : ℚ} {days : List PyDate} {per_day : ℕ}
    {raw : List RawPoi} {plans : List DayPlan}
    (h : build_itinerary hav w mode (some ola) (some olo) c_lat c_lng days per_day raw
      = .ok plans) :
    ∀ it ∈ joined_items plans,
      (∀ d, it.distance_km = some d → d ≤ max_km_for mode) ∨
      (it.duration_min = none ∧ it.distance_km.isSome = true) := by
  obtain ⟨enriched, henr, hplans⟩ := build_itinerary_ok_elim h
  intro it hit
  rw [hplans] at hit
  have hpois := dedup_pois_pairwise hav c_lat c_lng raw
  have hen := entries_pairwise_of_pois henr hpois
  have hpoolpw : (List.filter (fun e => entry_key e ∉ ([] : List (String × ℚ × ℚ)))
      (apply_radius_filter hav mode ola olo enriched
        (dedup_pois hav c_lat c_lng raw))).Pairwise
      (fun a b => norm_name a.name ≠ norm_name b.name) :=
    (apply_radius_filter_pairwise hen hpois).sublist (List.filter_sublist _)
  obtain ⟨e, he, heq, -⟩ := (alloc_days_spec per_day days _ [] hpoolpw).2 it hit
  have he2 : e ∈ apply_radius_filter hav mode ola olo enriched
      (dedup_pois hav c_lat c_lng raw) := List.mem_of_mem_filter he
  unfold apply_radius_filter at he2
  by_cases hf : enriched.filter (fun x => x.distance_km.getD 0 ≤ max_km_for mode) = []
  · rw [if_pos hf] at he2
    right
    obtain ⟨h1, h2⟩ := nearest20_fields e he2
    rw [heq]
    exact ⟨h1, h2⟩
  · rw [if_neg hf] at he2
    left
    intro d hd
    have hp := List.of_mem_filter he2
    rw [heq] at hd
    have hle : e.distance_km.getD 0 ≤ max_km_for mode := by simpa using hp
    have hd2 : e.distance_km = some d := hd
    rw [hd2] at hle
    simpa using hle

/-! ### `_diversify` structure lemmas -/

theorem div_init_fold (l : List Entry) :
    ∀ st : DivState,
      (l.foldl div_init_step st).bHistory
        = st.bHistory ++ l.filter (fun e => e.bucket = "history") ∧
      (l.foldl div_init_step st).bLandmarks
        = st.bLandmarks ++ l.filter (fun e => e.bucket = "landmarks") ∧
      (l.foldl div_init_step st).bMuseums
        = st.bMuseums ++ l.filter (fun e => e.bucket = "museums") ∧
      (l.foldl div_init_step st).bFood
        = st.bFood ++ l.filter (fun e => e.bucket = "food") ∧
      (l.foldl div_init_step st).bCafes
        = st.bCafes ++ l.filter (fun e => e.bucket = "cafes") ∧
      (l.foldl div_init_step st).bParks
        = st.bParks ++ l.filter (fun e => e.bucket = "parks") ∧
      (l.foldl div_init_step st).other
        = st.other ++ l.filter (fun e => e.bucket ∉ div_order) ∧
      (l.foldl div_init_step st).out = st.out := by
  induction l with
  | nil =>
    intro st
    simp
  | cons it l ih =>
    intro st
    obtain ⟨i1, i2, i3, i4, i5, i6, i7, i8⟩ := ih (div_init_step st it)
    by_cases h1 : it.bucket = "history"
    · have hd : div_init_step st it = { st with bHistory := st.bHistory ++ [it] } := by
        simp [div_init_step, h1]
      rw [hd] at i1 i2 i3 i4 i5 i6 i7 i8
      rw [List.foldl_cons, hd]
      refine ⟨?_, ?_, ?_, ?_, ?_, ?_, ?_, ?_⟩
      · rw [i1, List.filter_cons_of_pos (by simp [h1])]
        simp
      · rw [i2, List.filter_cons_of_neg (by simp [h1])]
      · rw [i3, List.filter_cons_of_neg (by simp [h1])]
      · rw [i4, List.filter_cons_of_neg (by simp [h1])]
      · rw [i5, List.filter_cons_of_neg (by simp [h1])]
      · rw [i6, List.filter_cons_of_neg (by simp [h1])]
      · rw [i7, List.filter_cons_of_neg (by simp [h1, div_order])]
      · exact i8
    ·
      by_cases h2 : it.bucket = "landmarks"
      · have hd : div_init_step st it = { st with bLandmarks := st.bLandmarks ++ [it] } := by
          simp [div_init_step, h1, h2]
        rw [hd] at i1 i2 i3 i4 i5 i6 i7 i8
        rw [List.foldl_cons, hd]
        refine ⟨?_, ?_, ?_, ?_, ?_, ?_, ?_, ?_⟩
        · rw [i1, List.filter_cons_of_neg (by simp [h2])]
        · rw [i2, List.filter_cons_of_pos (by simp [h2])]
          simp
        · rw [i3, List.filter_cons_of_neg (by simp [h2])]
        · rw [i4, List.filter_cons_of_neg (by simp [h2])]
        · rw [i5, List.filter_cons_of_neg (by simp [h2])]
        · rw [i6, List.filter_cons_of_neg (by simp [h2])]
        · rw [i7, List.filter_cons_of_neg (by simp [h2, div_order])]
        · exact i8
      ·
        by_cases h3 : it.bucket = "museums"
        · have hd : div_init_step st it = { st with bMuseums := st.bMuseums ++ [it] } := by
            simp [div_init_step, h1, h2, h3]
          rw [hd] at i1 i2 i3 i4 i5 i6 i7 i8
          rw [List.foldl_cons, hd]
          refine ⟨?_, ?_, ?_, ?_, ?_, ?_, ?_, ?_⟩
          · rw [i1, List.filter_cons_of_neg (by simp [h3])]
          · rw [i2, List.filter_cons_of_neg (by simp [h3])]
          · rw [i3, List.filter_cons_of_pos (by simp [h3])]
            simp
          · rw [i4, List.filter_cons_of_neg (by simp [h3])]
          · rw [i5, List.filter_cons_of_neg (by simp [h3])]
          · rw [i6, List.filter_cons_of_neg (by simp [h3])]
          · rw [i7, List.filter_cons_of_neg (by simp [h3, div_order])]
          · exact i8
        ·
          by_cases h4 : it.bucket = "food"
          · have hd : div_init_step st it = { st with bFood := st.bFood ++ [it] } := by
              simp [div_init_step, h1, h2, h3, h4]
            rw [hd] at i1 i2 i3 i4 i5 i6 i7 i8
            rw [List.foldl_cons, hd]
            refine ⟨?_, ?_, ?_, ?_, ?_, ?_, ?_, ?_⟩
            · rw [i1, List.filter_cons_of_neg (by simp [h4])]
            · rw [i2, List.filter_cons_of_neg (by simp [h4])]
            · rw [i3, List.filter_cons_of_neg (by simp [h4])]
            · rw [i4, List.filter_cons_of_pos (by simp [h4])]
              simp
            · rw [i5, List.filter_cons_of_neg (by simp [h4])]
            · rw [i6, List.filter_cons_of_neg (by simp [h4])]
            · rw [i7, List.filter_cons_of_neg (by simp [h4, div_order])]
            · exact i8
          ·
            by_cases h5 : it.bucket = "cafes"
            · have hd : div_init_step st it = { st with bCafes := st.bCafes ++ [it] } := by
                simp [div_init_step, h1, h2, h3, h4, h5]
              rw [hd] at i1 i2 i3 i4 i5 i6 i7 i8
              rw [List.foldl_cons, hd]
              refine ⟨?_, ?_, ?_, ?_, ?_, ?_, ?_, ?_⟩
              · rw [i1, List.filter_cons_of_neg (by simp [h5])]
              · rw [i2, List.filter_cons_of_neg (by simp [h5])]
              · rw [i3, List.filter_cons_of_neg (by simp [h5])]
              · rw [i4, List.filter_cons_of_neg (by simp [h5])]
              · rw [i5, List.filter_cons_of_pos (by simp [h5])]
                simp
              · rw [i6, List.filter_cons_of_neg (by simp [h5])]
              · rw [i7, List.filter_cons_of_neg (by simp [h5, div_order])]
              · exact i8
            ·
              by_cases h6 : it.bucket = "parks"
              · have hd : div_init_step st it = { st with bParks := st.bParks ++ [it] } := by
                  simp [div_init_step, h1, h2, h3, h4, h5, h6]
                rw [hd] at i1 i2 i3 i4 i5 i6 i7 i8
                rw [List.foldl_cons, hd]
                refine ⟨?_, ?_, ?_, ?_, ?_, ?_, ?_, ?_⟩
                · rw [i1, List.filter_cons_of_neg (by simp [h6])]
                · rw [i2, List.filter_cons_of_neg (by simp [h6])]
                · rw [i3, List.filter_cons_of_neg (by simp [h6])]
                · rw [i4, List.filter_cons_of_neg (by simp [h6])]
                · rw [i5, List.filter_cons_of_neg (by simp [h6])]
                · rw [i6, List.filter_cons_of_pos (by simp [h6])]
                  simp
                · rw [i7, List.filter_cons_of_neg (by simp [h6, div_order])]
                · exact i8
              ·
                · have hd : div_init_step st it = { st with other := st.other ++ [it] } := by
                    simp [div_init_step, h1, h2, h3, h4, h5, h6]
                  rw [hd] at i1 i2 i3 i4 i5 i6 i7 i8
                  rw [List.foldl_cons, hd]
                  refine ⟨?_, ?_, ?_, ?_, ?_, ?_, ?_, ?_⟩
                  · rw [i1, List.filter_cons_of_neg (by simp [h1])]
                  · rw [i2, List.filter_cons_of_neg (by simp [h2])]
                  · rw [i3, List.filter_cons_of_neg (by simp [h3])]
                  · rw [i4, List.filter_cons_of_neg (by simp [h4])]
                  · rw [i5, List.filter_cons_of_neg (by simp [h5])]
                  · rw [i6, List.filter_cons_of_neg (by simp [h6])]
                  · rw [i7, List.filter_cons_of_pos (by simp [div_order, h1, h2, h3, h4, h5, h6])]
                    simp
                  · exact i8

/-- Total number of items still waiting in the six buckets. -/
def rem_b (st : DivState) : ℕ :=
  st.bHistory.length + st.bLandmarks.length + st.bMuseums.length +
  st.bFood.length + st.bCafes.length + st.bParks.length

theorem try_take_len (n : ℕ) (bucket out : List Entry) :
    (try_take n bucket out).2.length + (try_take n bucket out).1.length
      = out.length + bucket.length ∧
    out.length ≤ (try_take n bucket out).2.length ∧
    (out.length ≤ n → (try_take n bucket out).2.length ≤ n) ∧
    ((try_take n bucket out).2.length = out.length → out.length < n → bucket = []) := by
  unfold try_take
  by_cases h : n ≤ out.length
  · rw [if_pos h]
    exact ⟨rfl, le_refl _, fun h2 => h2, fun _ h2 => absurd h (by omega)⟩
  · rw [if_neg h]
    cases bucket with
    | nil => exact ⟨by simp, le_refl _, fun h2 => h2, fun _ _ => rfl⟩
    | cons x xs =>
      refine ⟨?_, ?_, ?_, ?_⟩
      · simp only [List.length_append, List.length_cons, List.length_nil]
        omega
      · simp only [List.length_append, List.length_cons, List.length_nil]
        omega
      · intro h2
        simp only [List.length_append, List.length_cons, List.length_nil]
        omega
      · intro h2 _
        exfalso
        simp only [List.length_append, List.length_cons, List.length_nil] at h2
        omega

theorem try_take_out_extends (n : ℕ) (bucket out : List Entry) :
    ∃ t, (try_take n bucket out).2 = out ++ t := by
  unfold try_take
  by_cases h : n ≤ out.length
  · rw [if_pos h]
    exact ⟨[], by simp⟩
  · rw [if_neg h]
    cases bucket with
    | nil => exact ⟨[], by simp⟩
    | cons x xs => exact ⟨[x], rfl⟩

theorem div_pass_len (n : ℕ) (st : DivState) (hle : st.out.length ≤ n) :
    (div_pass n st).out.length + rem_b (div_pass n st) = st.out.length + rem_b st ∧
    (div_pass n st).out.length ≤ n ∧
    st.out.length ≤ (div_pass n st).out.length ∧
    (st.out.length < n → any_buckets st → st.out.length < (div_pass n st).out.length) ∧
    (div_pass n st).other = st.other := by
  obtain ⟨c1, m1, b1, e1⟩ := try_take_len n st.bHistory st.out
  obtain ⟨c2, m2, b2, e2⟩ := try_take_len n st.bLandmarks (try_take n st.bHistory st.out).2
  obtain ⟨c3, m3, b3, e3⟩ := try_take_len n st.bMuseums
    (try_take n st.bLandmarks (try_take n st.bHistory st.out).2).2
  obtain ⟨c4, m4, b4, e4⟩ := try_take_len n st.bFood
    (try_take n st.bMuseums (try_take n st.bLandmarks (try_take n st.bHistory st.out).2).2).2
  obtain ⟨c5, m5, b5, e5⟩ := try_take_len n st.bCafes
    (try_take n st.bFood (try_take n st.bMuseums
      (try_take n st.bLandmarks (try_take n st.bHistory st.out).2).2).2).2
  obtain ⟨c6, m6, b6, e6⟩ := try_take_len n st.bParks
    (try_take n st.bCafes (try_take n st.bFood (try_take n st.bMuseums
      (try_take n st.bLandmarks (try_take n st.bHistory st.out).2).2).2).2).2
  set t1 := try_take n st.bHistory st.out with ht1
  set t2 := try_take n st.bLandmarks t1.2 with ht2
  set t3 := try_take n st.bMuseums t2.2 with ht3
  set t4 := try_take n st.bFood t3.2 with ht4
  set t5 := try_take n st.bCafes t4.2 with ht5
  set t6 := try_take n st.bParks t5.2 with ht6
  have hout : (div_pass n st).out = t6.2 := rfl
  have hrem : rem_b (div_pass n st) = t1.1.length + t2.1.length + t3.1.length +
      t4.1.length + t5.1.length + t6.1.length := rfl
  have hoth : (div_pass n st).other = st.other := rfl
  have hrs : rem_b st = st.bHistory.length + st.bLandmarks.length + st.bMuseums.length +
      st.bFood.length + st.bCafes.length + st.bParks.length := rfl
  refine ⟨?_, ?_, ?_, ?_, hoth⟩
  · rw [hout, hrem, hrs]
    omega
  · rw [hout]
    exact b6 (b5 (b4 (b3 (b2 (b1 hle)))))
  · rw [hout]
    omega
  · intro hlt hany
    rw [hout]
    by_contra hng
    push_neg at hng
    have k1 := e1 (by omega) hlt
    have k2 := e2 (by omega) (by omega)
    have k3 := e3 (by omega) (by omega)
    have k4 := e4 (by omega) (by omega)
    have k5 := e5 (by omega) (by omega)
    have k6 := e6 (by omega) (by omega)
    unfold any_buckets at hany
    simp only [decide_eq_true_eq] at hany
    exact hany ⟨k1, k2, k3, k4, k5, k6⟩

theorem div_step_eq_pass (n : ℕ) (st : DivState) (ho : st.other = []) :
    div_step n st = div_pass n st := by
  have hp : (div_pass n st).other = [] := by
    rw [show (div_pass n st).other = st.other from rfl, ho]
  unfold div_step
  simp only [hp]
  simp

theorem div_pass_out_extends (n : ℕ) (st : DivState) :
    ∃ t, (div_pass n st).out = st.out ++ t := by
  obtain ⟨u1, h1⟩ := try_take_out_extends n st.bHistory st.out
  obtain ⟨u2, h2⟩ := try_take_out_extends n st.bLandmarks (try_take n st.bHistory st.out).2
  obtain ⟨u3, h3⟩ := try_take_out_extends n st.bMuseums
    (try_take n st.bLandmarks (try_take n st.bHistory st.out).2).2
  obtain ⟨u4, h4⟩ := try_take_out_extends n st.bFood
    (try_take n st.bMuseums (try_take n st.bLandmarks (try_take n st.bHistory st.out).2).2).2
  obtain ⟨u5, h5⟩ := try_take_out_extends n st.bCafes
    (try_take n st.bFood (try_take n st.bMuseums
      (try_take n st.bLandmarks (try_take n st.bHistory st.out).2).2).2).2
  obtain ⟨u6, h6⟩ := try_take_out_extends n st.bParks
    (try_take n st.bCafes (try_take n st.bFood (try_take n st.bMuseums
      (try_take n st.bLandmarks (try_take n st.bHistory st.out).2).2).2).2).2
  refine ⟨u1 ++ u2 ++ u3 ++ u4 ++ u5 ++ u6, ?_⟩
  show (try_take n st.bParks _).2 = _
  rw [h6, h5, h4, h3, h2, h1]
  simp [List.append_assoc]

theorem div_step_out_extends (n : ℕ) (st : DivState) :
    ∃ t, (div_step n st).out = st.out ++ t := by
  obtain ⟨u, hu⟩ := div_pass_out_extends n st
  unfold div_step
  cases hother : (div_pass n st).other with
  | nil =>
    simp only [hother]
    by_cases hbr : n ≤ (div_pass n st).out.length
    · rw [if_pos hbr]
      exact ⟨u, hu⟩
    · rw [if_neg hbr]
      by_cases hend : ¬ any_buckets (div_pass n st) ∧ ([] : List Entry) ≠ []
      · exact absurd rfl hend.2
      · rw [if_neg hend]
        exact ⟨u, hu⟩
  | cons o rest =>
    simp only [hother]
    by_cases hlt : (div_pass n st).out.length < n
    · rw [if_pos hlt]
      set st1 : DivState := { div_pass n st with out := (div_pass n st).out ++ [o], other := rest }
        with hst1
      by_cases hbr : n ≤ st1.out.length
      · rw [if_pos hbr]
        exact ⟨u ++ [o], by rw [show st1.out = (div_pass n st).out ++ [o] from rfl, hu]; simp⟩
      · rw [if_neg hbr]
        by_cases hend : ¬ any_buckets st1 ∧ st1.other ≠ []
        · rw [if_pos hend]
          refine ⟨u ++ [o] ++ st1.other.take (n - st1.out.length), ?_⟩
          show st1.out ++ st1.other.take (n - st1.out.length) = _
          rw [show st1.out = (div_pass n st).out ++ [o] from rfl, hu]
          simp [List.append_assoc]
        · rw [if_neg hend]
          exact ⟨u ++ [o], by rw [show st1.out = (div_pass n st).out ++ [o] from rfl, hu]; simp⟩
    · rw [if_neg hlt]
      by_cases hbr : n ≤ (div_pass n st).out.length
      · rw [if_pos hbr]
        exact ⟨u, hu⟩
      · exact absurd (Nat.lt_of_not_le hbr) hlt

theorem div_loop_out_extends (n : ℕ) :
    ∀ (fuel : ℕ) (st : DivState), ∃ t, div_loop n fuel st = st.out ++ t
  | 0, st => ⟨[], by simp [div_loop]⟩
  | fuel + 1, st => by
    unfold div_loop
    by_cases hc : st.out.length < n ∧ (any_buckets st ∨ st.other ≠ [])
    · rw [if_pos hc]
      obtain ⟨u, hu⟩ := div_step_out_extends n st
      obtain ⟨v, hv⟩ := div_loop_out_extends n fuel (div_step n st)
      exact ⟨u ++ v, by rw [hv, hu]; simp [List.append_assoc]⟩
    · rw [if_neg hc]
      exact ⟨[], by simp⟩

theorem div_loop_len (n : ℕ) :
    ∀ (fuel : ℕ) (st : DivState), st.other = [] → st.out.length ≤ n → rem_b st ≤ fuel →
      (div_loop n fuel st).length = min n (st.out.length + rem_b st)
  | 0, st, ho, hle, hfuel => by
    have hz : rem_b st = 0 := by omega
    show st.out.length = _
    rw [hz]
    omega
  | fuel + 1, st, ho, hle, hfuel => by
    unfold div_loop
    by_cases hc : st.out.length < n ∧ (any_buckets st ∨ st.other ≠ [])
    · rw [if_pos hc]
      have hany : any_buckets st := by
        rcases hc.2 with h | h
        · exact h
        · exact absurd ho h
      obtain ⟨cons, hlen, hmono, hprog, hoth⟩ := div_pass_len n st hle
      have hstep := div_step_eq_pass n st ho
      rw [hstep]
      have hrec := div_loop_len n fuel (div_pass n st)
        (by rw [hoth]; exact ho) hlen (by have := hprog hc.1 hany; omega)
      rw [hrec]
      omega
    · rw [if_neg hc]
      push_neg at hc
      by_cases hlt : st.out.length < n
      · have hnb : ¬ any_buckets st := (hc hlt).1
        have hz : rem_b st = 0 := by
          unfold any_buckets at hnb
          simp only [decide_eq_true_eq, not_not] at hnb
          obtain ⟨z1, z2, z3, z4, z5, z6⟩ := hnb
          unfold rem_b
          rw [z1, z2, z3, z4, z5, z6]
          rfl
        rw [hz]
        show st.out.length = _
        omega
      · show st.out.length = _
        have : st.out.length = n := by omega
        omega

theorem bucket_for_tags_total (tags : List (String × String)) :
    bucket_for_tags tags ∈ div_order := by
  unfold bucket_for_tags div_order
  repeat' split
  all_goals simp

theorem filter_sum_of_bucketed (items : List Entry)
    (hb : ∀ e ∈ items, e.bucket ∈ div_order) :
    (items.filter (fun e => e.bucket = "history")).length +
    (items.filter (fun e => e.bucket = "landmarks")).length +
    (items.filter (fun e => e.bucket = "museums")).length +
    (items.filter (fun e => e.bucket = "food")).length +
    (items.filter (fun e => e.bucket = "cafes")).length +
    (items.filter (fun e => e.bucket = "parks")).length = items.length := by
  induction items with
  | nil => simp
  | cons it l ih =>
    have hbl : ∀ e ∈ l, e.bucket ∈ div_order := fun e he => hb e (List.mem_cons_of_mem _ he)
    have hit := hb it (List.mem_cons_self _ _)
    have hrec := ih hbl
    simp only [div_order, List.mem_cons, List.not_mem_nil, or_false] at hit
    rcases hit with h | h | h | h | h | h <;>
      · simp [List.filter_cons, h]
        omega

theorem div_init_parts (items : List Entry) :
    (div_init items).bHistory = items.filter (fun e => e.bucket = "history") ∧
    (div_init items).bLandmarks = items.filter (fun e => e.bucket = "landmarks") ∧
    (div_init items).bMuseums = items.filter (fun e => e.bucket = "museums") ∧
    (div_init items).bFood = items.filter (fun e => e.bucket = "food") ∧
    (div_init items).bCafes = items.filter (fun e => e.bucket = "cafes") ∧
    (div_init items).bParks = items.filter (fun e => e.bucket = "parks") ∧
    (div_init items).other = items.filter (fun e => e.bucket ∉ div_order) ∧
    (div_init items).out = [] := by
  obtain ⟨f1, f2, f3, f4, f5, f6, f7, f8⟩ :=
    div_init_fold items ⟨[], [], [], [], [], [], [], []⟩
  exact ⟨by simpa using f1, by simpa using f2, by simpa using f3, by simpa using f4,
    by simpa using f5, by simpa using f6, by simpa using f7, f8⟩

theorem div_init_other_empty (items : List Entry)
    (hb : ∀ e ∈ items, e.bucket ∈ div_order) :
    (div_init items).other = [] := by
  rw [(div_init_parts items).2.2.2.2.2.2.1]
  rw [List.filter_eq_nil]
  intro e he
  simp only [decide_eq_true_eq, not_not]
  exact hb e he

theorem diversify_len (items : List Entry) (n : ℕ)
    (hb : ∀ e ∈ items, e.bucket ∈ div_order) :
    (diversify items n).length = min n items.length := by
  obtain ⟨f1, f2, f3, f4, f5, f6, f7, f8⟩ := div_init_parts items
  have ho : (div_init items).other = [] := div_init_other_empty items hb
  have hrem : rem_b (div_init items) = items.length := by
    unfold rem_b
    rw [f1, f2, f3, f4, f5, f6]
    exact filter_sum_of_bucketed items hb
  unfold diversify
  rw [div_loop_len n (items.length + 1) (div_init items) ho
    (by rw [f8]; simp) (by rw [hrem]; omega)]
  rw [f8, hrem]
  simp

theorem div_pass_first_six (n : ℕ) (st : DivState) (hn : 6 ≤ n) (hout : st.out = [])
    (e1 e2 e3 e4 e5 e6 : Entry) (t1 t2 t3 t4 t5 t6 : List Entry)
    (h1 : st.bHistory = e1 :: t1) (h2 : st.bLandmarks = e2 :: t2)
    (h3 : st.bMuseums = e3 :: t3) (h4 : st.bFood = e4 :: t4)
    (h5 : st.bCafes = e5 :: t5) (h6 : st.bParks = e6 :: t6) :
    (div_pass n st).out = [e1, e2, e3, e4, e5, e6] := by
  have s1 : try_take n st.bHistory st.out = (t1, [e1]) := by
    rw [h1, hout]
    unfold try_take
    rw [if_neg (by simp; omega)]
    rfl
  have s2 : try_take n st.bLandmarks [e1] = (t2, [e1, e2]) := by
    rw [h2]
    unfold try_take
    rw [if_neg (by simp; omega)]
    rfl
  have s3 : try_take n st.bMuseums [e1, e2] = (t3, [e1, e2, e3]) := by
    rw [h3]
    unfold try_take
    rw [if_neg (by simp; omega)]
    rfl
  have s4 : try_take n st.bFood [e1, e2, e3] = (t4, [e1, e2, e3, e4]) := by
    rw [h4]
    unfold try_take
    rw [if_neg (by simp; omega)]
    rfl
  have s5 : try_take n st.bCafes [e1, e2, e3, e4] = (t5, [e1, e2, e3, e4, e5]) := by
    rw [h5]
    unfold try_take
    rw [if_neg (by simp; omega)]
    rfl
  have s6 : try_take n st.bParks [e1, e2, e3, e4, e5] = (t6, [e1, e2, e3, e4, e5, e6]) := by
    rw [h6]
    unfold try_take
    rw [if_neg (by simp; omega)]
    rfl
  show (try_take n st.bParks (try_take n st.bCafes (try_take n st.bFood
    (try_take n st.bMuseums (try_take n st.bLandmarks
      (try_take n st.bHistory st.out).2).2).2).2).2).2 = _
  simp only [s1, s2, s3, s4, s5, s6]

theorem diversify_first_six (items : List Entry) (n : ℕ)
    (hb : ∀ e ∈ items, e.bucket ∈ div_order) (hn : 6 ≤ n)
    (h6 : ∀ b ∈ div_order, ∃ e ∈ items, e.bucket = b) :
    ((diversify items n).take 6).map (·.bucket) = div_order := by
  obtain ⟨f1, f2, f3, f4, f5, f6, f7, f8⟩ := div_init_parts items
  have ho : (div_init items).other = [] := div_init_other_empty items hb
  have hne : ∀ b ∈ div_order, items.filter (fun e => e.bucket = b) ≠ [] := by
    intro b hbm
    obtain ⟨e, he, hbe⟩ := h6 b hbm
    exact List.ne_nil_of_mem (List.mem_filter.mpr ⟨he, by simp [hbe]⟩)
  obtain ⟨e1, t1, hh1⟩ := List.exists_cons_of_ne_nil (hne "history" (by simp [div_order]))
  obtain ⟨e2, t2, hh2⟩ := List.exists_cons_of_ne_nil (hne "landmarks" (by simp [div_order]))
  obtain ⟨e3, t3, hh3⟩ := List.exists_cons_of_ne_nil (hne "museums" (by simp [div_order]))
  obtain ⟨e4, t4, hh4⟩ := List.exists_cons_of_ne_nil (hne "food" (by simp [div_order]))
  obtain ⟨e5, t5, hh5⟩ := List.exists_cons_of_ne_nil (hne "cafes" (by simp [div_order]))
  obtain ⟨e6, t6, hh6⟩ := List.exists_cons_of_ne_nil (hne "parks" (by simp [div_order]))
  have hbk : ∀ (b : String) (e : Entry) (t : List Entry),
      items.filter (fun x => x.bucket = b) = e :: t → e.bucket = b := by
    intro b e t het
    have hm : e ∈ items.filter (fun x => x.bucket = b) := by
      rw [het]
      exact List.mem_cons_self _ _
    simpa using List.of_mem_filter hm
  have hbk1 := hbk _ _ _ hh1
  have hbk2 := hbk _ _ _ hh2
  have hbk3 := hbk _ _ _ hh3
  have hbk4 := hbk _ _ _ hh4
  have hbk5 := hbk _ _ _ hh5
  have hbk6 := hbk _ _ _ hh6
  have hcond : (div_init items).out.length < n ∧
      (any_buckets (div_init items) ∨ (div_init items).other ≠ []) := by
    constructor
    · rw [f8]
      simp
      omega
    · left
      unfold any_buckets
      rw [f1, hh1]
      simp
  have hfirst : div_loop n (items.length + 1) (div_init items) =
      div_loop n items.length (div_step n (div_init items)) := by
    conv_lhs => unfold div_loop
    rw [if_pos hcond]
  have hp6 : (div_pass n (div_init items)).out = [e1, e2, e3, e4, e5, e6] :=
    div_pass_first_six n (div_init items) hn f8 e1 e2 e3 e4 e5 e6 t1 t2 t3 t4 t5 t6
      (by rw [f1, hh1]) (by rw [f2, hh2]) (by rw [f3, hh3]) (by rw [f4, hh4])
      (by rw [f5, hh5]) (by rw [f6, hh6])
  obtain ⟨t, ht⟩ := div_loop_out_extends n items.length (div_pass n (div_init items))
  unfold diversify
  rw [hfirst, div_step_eq_pass n _ ho, ht, hp6]
  rw [show (6 : ℕ) = [e1, e2, e3, e4, e5, e6].length from rfl, List.take_left]
  simp [div_order, hbk1, hbk2, hbk3, hbk4, hbk5, hbk6]

/-! ### Concrete scenario data used by the claim witnesses -/

def today0 : PyDate := ⟨2026, 1, 1⟩

/-- A concrete stand-in for the abstract great-circle distance. -/
def hav_demo : ℚ → ℚ → ℚ → ℚ → ℚ := fun _ _ la lo => la + lo

def osm_node (name : String) (extra : List (String × String)) (la lo : ℚ) : OsmElement :=
  { etype := "node", lat := some la, lon := some lo, center_lat := none, center_lon := none,
    tags := ("name", name) :: extra }

def world_base : World :=
  { nominatim_center := fun _ => .ok [((10 : ℚ), (20 : ℚ))],
    overpass := fun _ _ _ _ => .ok
      [osm_node "Museum X" [("tourism", "museum")] 1 0,
       osm_node "Cafe Y, Old Town" [("amenity", "cafe")] 2 0],
    nominatim := fun _ _ _ _ => .ok [],
    osrm := fun _ _ _ _ _ => .ok [] }

def world_geo_empty : World :=
  { world_base with nominatim_center := fun _ => .ok [] }

def world_osrm_err : World :=
  { world_base with osrm := fun _ _ _ _ _ => .error (.httpStatusError 500) }

def trip_default : TripResult :=
  { destination := "", start_date := "", end_date := "", mode := "", itinerary := [],
    links := { flights := "", hotels := "" }, notes := "" }

/-- Unwrap a successful planning result (used only to name concrete
outputs in witnesses). -/
def res_of (x : Except PyErr TripResult) : TripResult :=
  match x with
  | .ok r => r
  | .error _ => trip_default

/-- `True` when the call succeeded and the predicate holds of its result. -/
def ok_satisfies (x : Except PyErr TripResult) (p : TripResult → Bool) : Bool :=
  match x with
  | .ok r => p r
  | .error _ => false

/-! ### Claim theorems -/

/-- C10: for any two interest lists that resolve to the same set of
category buckets (via the OSM tag table and the term-to-bucket lookup),
`plan_trip` behaves identically given the same external responses: the
expanded canonical term list is computed but never influences the
queries issued or the returned itinerary. -/
theorem C10_interest_bucket_extensionality
    (hav : ℚ → ℚ → ℚ → ℚ → ℚ) (today : PyDate) (w : World)
    (destination : String) (s e : Option String) (i1 i2 : List String)
    (pace mode : String) (ola olo : Option ℚ) (lim : ℤ) (rad : ℚ)
    (h : chosen_buckets (some i1) = chosen_buckets (some i2)) :
    plan_trip hav today w destination s e (some i1) pace mode ola olo lim rad =
    plan_trip hav today w destination s e (some i2) pace mode ola olo lim rad := by
  simp only [plan_trip]
  rw [h]

/-- Witness for C10: `["food"]` and `["kebab", "bakery"]` expand to very
different canonical term lists but the same bucket set, and the planner
output is identical. -/
theorem C10_witness :
    plan_trip hav_demo today0 world_base "Algiers" none none (some ["food"])
      "moderate" "foot" none none 4 12 =
    plan_trip hav_demo today0 world_base "Algiers" none none (some ["kebab", "bakery"])
      "moderate" "foot" none none 4 12 :=
  C10_interest_bucket_extensionality hav_demo today0 world_base "Algiers" none none
    ["food"] ["kebab", "bakery"] "moderate" "foot" none none 4 12 (by decide)

/-- C5: a planning request without an explicit origin whose destination
geocoding returns no result produces the well-formed itinerary shell —
empty itinerary, populated flight/hotel links and an explanatory note —
rather than raising an error. -/
theorem C5_unresolved_center_shell
    (hav : ℚ → ℚ → ℚ → ℚ → ℚ) (today : PyDate) (w : World)
    (destination : String) (s e : Option String) (interests : Option (List String))
    (pace mode : String) (lim : ℤ) (rad : ℚ)
    (h : w.nominatim_center destination = .ok []) :
    plan_trip hav today w destination s e interests pace mode none none lim rad =
      .ok (unresolved_shell destination mode
        (trip_dates today s e).1 (trip_dates today s e).2) ∧
    (unresolved_shell destination mode
      (trip_dates today s e).1 (trip_dates today s e).2).itinerary = [] ∧
    (unresolved_shell destination mode
      (trip_dates today s e).1 (trip_dates today s e).2).links.flights =
      deeplink_flights "" destination
        (some (trip_dates today s e).1) (some (trip_dates today s e).2) ∧
    (unresolved_shell destination mode
      (trip_dates today s e).1 (trip_dates today s e).2).links.hotels =
      deeplink_hotels destination
        (some (trip_dates today s e).1) (some (trip_dates today s e).2) ∧
    (unresolved_shell destination mode
      (trip_dates today s e).1 (trip_dates today s e).2).notes =
      "Could not locate the city center for your destination." := by
  refine ⟨?_, rfl, rfl, rfl, rfl⟩
  simp only [plan_trip, city_center, h]
  rfl

/-- Witness for C5 at destination `"Nowhereland-42"`. -/
theorem C5_witness :
    plan_trip hav_demo today0 world_geo_empty "Nowhereland-42" none none none
      "moderate" "foot" none none 5 12 =
      .ok (unresolved_shell "Nowhereland-42" "foot"
        (trip_dates today0 none none).1 (trip_dates today0 none none).2) ∧
    (unresolved_shell "Nowhereland-42" "foot"
      (trip_dates today0 none none).1 (trip_dates today0 none none).2).itinerary = [] :=
  ⟨(C5_unresolved_center_shell hav_demo today0 world_geo_empty "Nowhereland-42"
      none none none "moderate" "foot" 5 12 rfl).1,
   (C5_unresolved_center_shell hav_demo today0 world_geo_empty "Nowhereland-42"
      none none none "moderate" "foot" 5 12 rfl).2.1⟩

/-- C8: if `start_date` or `end_date` is missing, unparseable, or the
parsed end precedes the start, `plan_trip` silently substitutes the
default window `today + 7 days` through `today + 9 days` (an inclusive
3-day span) — the substitution is a total function, so bad dates never
raise — and every successful result carries those dates in ISO format. -/
theorem C8_default_date_window
    (hav : ℚ → ℚ → ℚ → ℚ → ℚ) (today : PyDate) (w : World)
    (destination : String) (s e : Option String) (interests : Option (List String))
    (pace mode : String) (ola olo : Option ℚ) (lim : ℤ) (rad : ℚ)
    (h : parse_date s = none ∨ parse_date e = none ∨
         ∃ a b, parse_date s = some a ∧ parse_date e = some b ∧ date_lt b a = true) :
    trip_dates today s e = (add_days today 7, add_days (add_days today 7) 2) ∧
    ∀ res, plan_trip hav today w destination s e interests pace mode ola olo lim rad
        = .ok res →
      res.start_date = isoformat (add_days today 7) ∧
      res.end_date = isoformat (add_days (add_days today 7) 2) := by
  have h1 : trip_dates today s e = (add_days today 7, add_days (add_days today 7) 2) := by
    rcases h with h | h | ⟨a, b, ha, hb, hlt⟩
    · unfold trip_dates
      rw [h]
      rfl
    · unfold trip_dates
      cases hps : parse_date s with
      | none => rfl
      | some a =>
        rw [h]
        rfl
    · unfold trip_dates
      rw [ha, hb]
      show (if date_lt b a = true then future_default_range today else (a, b)) = _
      rw [if_pos hlt]
      rfl
  refine ⟨h1, ?_⟩
  intro res hres
  have ha : (trip_dates today s e).1 = add_days today 7 := by rw [h1]
  have hb : (trip_dates today s e).2 = add_days (add_days today 7) 2 := by rw [h1]
  have h2 := plan_trip_start_end hres
  rw [ha, hb] at h2
  exact h2

/-- Witness for C8: swapped dates trigger the default window. -/
theorem C8_witness :
    trip_dates today0 (some "2022-05-10") (some "2022-05-09")
      = (add_days today0 7, add_days (add_days today0 7) 2) :=
  (C8_default_date_window hav_demo today0 world_geo_empty "X" (some "2022-05-10")
    (some "2022-05-09") none "moderate" "foot" none none 5 12
    (by right; right; exact ⟨⟨2022,5,10⟩, ⟨2022,5,9⟩, by decide, by decide, by decide⟩)).1


/-! ### Remaining claim developments -/

theorem except_error_bind {α β : Type} (err : PyErr) (f : α → Except PyErr β) :
    (Except.error err >>= f : Except PyErr β) = Except.error err := rfl

theorem except_ok_bind {α β : Type} (a : α) (f : α → Except PyErr β) :
    (Except.ok a >>= f : Except PyErr β) = f a := rfl

/-- A deduplicated POI used by several concrete scenarios. -/
def cpoi_demo : CPoi :=
  { name := "Pont des Arts", lat := 1, lng := 0, map_url := "", tags := [],
    d_center_km := 51/100 }

/-- The spec's claimed foot-mode heuristic, written from its words:
`ceil(distance_km * 12)` minutes, clamped to a minimum of 3. -/
def spec_foot_minutes (d : ℚ) : ℤ :=
  max 3 (-(Rat.floor (-(d * 12))))

/-- A distance oracle returning the destination latitude, used to build
POIs whose raw distances disagree with their 3-decimal rounding. -/
def hav_lat : ℚ → ℚ → ℚ → ℚ → ℚ := fun _ _ la _ => la

def rawC7 : List RawPoi :=
  [{ name := "Alpha", lat := 4/10000, lng := 0, map_url := "", tags := [] },
   { name := "Beta", lat := 1/10000, lng := 0, map_url := "", tags := [] }]

/-- An enriched entry whose routed distance is null. -/
def entryC9 : Entry :=
  { name := "Lost Garden", lat := 0, lng := 0, map_url := "", distance_km := none,
    duration_min := none, bucket := "parks" }

def entryC6 (nm bk : String) : Entry :=
  { name := nm, lat := 0, lng := 0, map_url := "", distance_km := none,
    duration_min := none, bucket := bk }

/-- Six one-per-bucket items, deliberately out of priority order. -/
def itemsC6 : List Entry :=
  [entryC6 "a" "parks", entryC6 "b" "history", entryC6 "c" "landmarks",
   entryC6 "d" "museums", entryC6 "e" "food", entryC6 "f" "cafes"]

/-- C1: the spec says routing failures (timeout, non-2xx, empty route
list) are always resolved by a per-mode great-circle heuristic and never
surfaced.  The code does the opposite: `_osrm_time` calls
`raise_for_status()` with no handler on the `plan_trip` side, so a
transport or HTTP failure propagates out of the enrichment loop as an
exception, and an empty route list yields `(None, None)` — no heuristic
of any kind is applied. -/
theorem C1_routing_failure_surfaces
    (w : World) (mode : String) (ola olo : ℚ) (p : CPoi) :
    (∀ err, w.osrm (if mode = "foot" then "walking" else if mode = "bike" then "cycling"
        else if mode = "driving" then "driving" else "walking") ola olo p.lat p.lng
        = .error err →
      enrich_poi w mode (some ola) (some olo) p = .error err) ∧
    (w.osrm (if mode = "foot" then "walking" else if mode = "bike" then "cycling"
        else if mode = "driving" then "driving" else "walking") ola olo p.lat p.lng
        = .ok [] →
      enrich_poi w mode (some ola) (some olo) p =
        .ok { name := first_comma_comp p.name, lat := p.lat, lng := p.lng,
              map_url := p.map_url, distance_km := none, duration_min := none,
              bucket := bucket_for_tags p.tags }) := by
  constructor
  · intro err herr
    simp only [enrich_poi, osrm_time, herr, except_error_bind]
  · intro hok
    simp only [enrich_poi, osrm_time, hok, except_ok_bind]
    simp [suspicious_foot, except_pure_eq, except_ok_bind]

set_option maxHeartbeats 1600000 in
unseal Rat.add Rat.mul Rat.sub Rat.inv in
/-- C1 counterexample: a concrete request with an explicit origin whose
routing service answers HTTP 500 makes `plan_trip` itself return that
error — the failure is surfaced to the caller, not absorbed by any
fallback. -/
theorem C1_counterexample :
    plan_trip hav_demo today0 world_osrm_err "Algiers" none none none "moderate" "foot"
      (some 0) (some 0) 5 12 = .error (.httpStatusError 500) := by
  rfl

/-- Witness for C1 at a concrete world and POI: the error case and the
empty-route case of the amended statement, both discharged at the
routing oracles of `world_osrm_err` and `world_base`. -/
theorem C1_witness :
    enrich_poi world_osrm_err "foot" (some 0) (some 0) cpoi_demo
      = .error (.httpStatusError 500) ∧
    enrich_poi world_base "foot" (some 0) (some 0) cpoi_demo =
      .ok { name := first_comma_comp cpoi_demo.name, lat := cpoi_demo.lat,
            lng := cpoi_demo.lng, map_url := cpoi_demo.map_url, distance_km := none,
            duration_min := none, bucket := bucket_for_tags cpoi_demo.tags } :=
  ⟨(C1_routing_failure_surfaces world_osrm_err "foot" 0 0 cpoi_demo).1
      (.httpStatusError 500) rfl,
   (C1_routing_failure_surfaces world_base "foot" 0 0 cpoi_demo).2 rfl⟩

/-- C2: in every successful output of `plan_trip`, no two POIs across
the entire itinerary (over all days) share a normalized-name key, the
key being the lowercase portion of the name before the first comma. -/
theorem C2_itinerary_name_uniqueness
    (hav : ℚ → ℚ → ℚ → ℚ → ℚ) (today : PyDate) (w : World)
    (destination : String) (s e : Option String) (interests : Option (List String))
    (pace mode : String) (ola olo : Option ℚ) (lim : ℤ) (rad : ℚ) {res : TripResult}
    (h : plan_trip hav today w destination s e interests pace mode ola olo lim rad
      = .ok res) :
    (joined_items res.itinerary).Pairwise
      (fun a b => norm_name a.name ≠ norm_name b.name) := by
  rcases plan_trip_ok_itinerary h with hnil | ⟨cl, cg, raw, hb⟩
  · rw [hnil]
    simp [joined_items]
  · exact build_itinerary_pairwise hb

set_option maxHeartbeats 1600000 in
unseal Rat.add Rat.mul Rat.sub Rat.inv in
/-- Witness for C2 on a concrete two-POI scenario. -/
theorem C2_witness :
    (joined_items (res_of (plan_trip hav_demo today0 world_base "Algiers" none none none
        "moderate" "foot" none none 5 12)).itinerary).Pairwise
      (fun a b => norm_name a.name ≠ norm_name b.name) :=
  C2_itinerary_name_uniqueness hav_demo today0 world_base "Algiers" none none none
    "moderate" "foot" none none 5 12 (by rfl)

set_option maxHeartbeats 1600000 in
unseal Rat.add Rat.mul Rat.sub Rat.inv in
/-- C3 counterexample: the spec says foot mode rounds the heuristic
duration up (`ceil(distance_km * 12)`).  The code uses Python's `round`:
at `d_center_km = 0.51` km the code yields `round(6.12) = 6` minutes
while the spec's formula yields `ceil(6.12) = 7`. -/
theorem C3_counterexample :
    enrich_poi world_base "foot" none none cpoi_demo =
      .ok { name := "Pont des Arts", lat := 1, lng := 0, map_url := "",
            distance_km := some (51/100), duration_min := some 6,
            bucket := "landmarks" } ∧
    spec_foot_minutes (51/100) = 7 := by
  constructor
  · rfl
  · decide

set_option maxHeartbeats 400000 in
unseal Rat.add Rat.mul Rat.sub Rat.inv in
/-- C3 (amended): with no explicit origin the duration estimate is
computed purely from distance-to-anchor, but foot mode uses Python's
banker-rounding `round(distance_km * 12)` (not `ceil`), clamped to a
minimum of 3; bike uses `round(distance_km * 4)` and any other mode
`round(distance_km * 2.5)`.  At `distance_km = 1.5`, foot mode does
yield 18 minutes (the product is integral, so `round` and `ceil`
agree there). -/
theorem C3_no_origin_heuristic (w : World) (mode : String) (p : CPoi) :
    enrich_poi w mode none none p =
      .ok { name := first_comma_comp p.name, lat := p.lat, lng := p.lng,
            map_url := p.map_url, distance_km := some (py_round p.d_center_km 2),
            duration_min := some (if mode = "foot"
                then max MIN_WALK_MIN (py_round_int (p.d_center_km * WALK_SPEED_MIN_PER_KM))
                else if mode = "bike" then py_round_int (p.d_center_km * 4)
                else py_round_int (p.d_center_km * (5/2))),
            bucket := bucket_for_tags p.tags } ∧
    max MIN_WALK_MIN (py_round_int ((3/2 : ℚ) * WALK_SPEED_MIN_PER_KM)) = 18 := by
  constructor
  · simp only [enrich_poi, fallback_walk_minutes, except_pure_eq]
  · decide

/-- C4: the mode radii are foot 6 km, bike 12 km, otherwise 30 km; the
radius filter keeps the entries within the radius (a null distance
counting as 0) unless that pool is empty, in which case the 20
straight-line-nearest POIs are substituted; and in every successful
`plan_trip` output with an explicit origin, each itinerary item either
has `distance_km` within the mode's radius or is a nearest-20 fallback
item, recognizable by a populated `distance_km` and a null
`duration_min`. -/
theorem C4_radius_bound
    (hav : ℚ → ℚ → ℚ → ℚ → ℚ) (today : PyDate) (w : World)
    (destination : String) (s e : Option String) (interests : Option (List String))
    (pace mode : String) (ola olo : ℚ) (lim : ℤ) (rad : ℚ) {res : TripResult}
    (h : plan_trip hav today w destination s e interests pace mode (some ola) (some olo)
        lim rad = .ok res) :
    max_km_for "foot" = 6 ∧ max_km_for "bike" = 12 ∧ max_km_for "driving" = 30 ∧
    (∀ enriched pois,
      apply_radius_filter hav mode ola olo enriched pois =
        (if enriched.filter (fun x => x.distance_km.getD 0 ≤ max_km_for mode) = []
         then nearest20 hav ola olo pois
         else enriched.filter (fun x => x.distance_km.getD 0 ≤ max_km_for mode)) ∧
      (nearest20 hav ola olo pois).length ≤ 20) ∧
    ∀ it ∈ joined_items res.itinerary,
      (∀ d, it.distance_km = some d → d ≤ max_km_for mode) ∨
      (it.duration_min = none ∧ it.distance_km.isSome = true) := by
  refine ⟨rfl, rfl, rfl, ?_, ?_⟩
  · intro enriched pois
    refine ⟨rfl, ?_⟩
    unfold nearest20
    simp
  · rcases plan_trip_ok_itinerary h with hnil | ⟨cl, cg, raw, hb⟩
    · rw [hnil]
      intro it hit
      simp [joined_items] at hit
    · exact build_itinerary_radius hb

set_option maxHeartbeats 1600000 in
unseal Rat.add Rat.mul Rat.sub Rat.inv in
/-- Witness for C4 at a concrete request with origin `(0, 0)`. -/
theorem C4_witness :
    max_km_for "foot" = 6 ∧ max_km_for "bike" = 12 ∧ max_km_for "driving" = 30 ∧
    (∀ enriched pois,
      apply_radius_filter hav_demo "foot" 0 0 enriched pois =
        (if enriched.filter (fun x => x.distance_km.getD 0 ≤ max_km_for "foot") = []
         then nearest20 hav_demo 0 0 pois
         else enriched.filter (fun x => x.distance_km.getD 0 ≤ max_km_for "foot")) ∧
      (nearest20 hav_demo 0 0 pois).length ≤ 20) ∧
    ∀ it ∈ joined_items (res_of (plan_trip hav_demo today0 world_base "Algiers" none none
        none "moderate" "foot" (some 0) (some 0) 5 12)).itinerary,
      (∀ d, it.distance_km = some d → d ≤ max_km_for "foot") ∨
      (it.duration_min = none ∧ it.distance_km.isSome = true) :=
  C4_radius_bound hav_demo today0 world_base "Algiers" none none none "moderate" "foot"
    0 0 5 12 (by rfl)

/-- C6: every entry is assigned one of the six priority buckets (the
bucket classifier is total into `div_order`, so over `plan_trip`'s item
windows the "leftover" clause is vacuous); under the claim's premises —
all items bucketed, a per-day limit of at least 6, and at least one item
available per bucket — the first six diversified items' buckets are
exactly `[history, landmarks, museums, food, cafes, parks]` in order,
so no bucket repeats before all six have appeared; the step selects
`min(limit, window)` items and only items of the window. -/
theorem C6_bucket_diversification (items : List Entry) (n : ℕ)
    (hb : ∀ e ∈ items, e.bucket ∈ div_order) (hn : 6 ≤ n)
    (h6 : ∀ b ∈ div_order, ∃ e ∈ items, e.bucket = b) :
    ((diversify items n).take 6).map (fun e => e.bucket) = div_order ∧
    (diversify items n).length = min n items.length ∧
    (∀ e ∈ diversify items n, e ∈ items) ∧
    ∀ tags, bucket_for_tags tags ∈ div_order :=
  ⟨diversify_first_six items n hb hn h6, diversify_len items n hb,
   diversify_mem items n, bucket_for_tags_total⟩

/-- Witness for C6: six one-per-bucket items arriving out of priority
order leave `_diversify` in exactly the priority order. -/
theorem C6_witness :
    ((diversify itemsC6 6).take 6).map (fun e => e.bucket) = div_order ∧
    (diversify itemsC6 6).length = min 6 itemsC6.length ∧
    (∀ e ∈ diversify itemsC6 6, e ∈ itemsC6) ∧
    ∀ tags, bucket_for_tags tags ∈ div_order :=
  C6_bucket_diversification itemsC6 6 (by decide) (by decide) (by decide)

set_option maxHeartbeats 1600000 in
unseal Rat.add Rat.mul Rat.sub Rat.inv in
/-- C7 counterexample: the deduplicated list is sorted by the distance
rounded to 3 decimals, not by the raw distance: two POIs at 0.0004 km
and 0.0001 km share the rounded key 0.0, so the stable sort keeps their
insertion order and the raw distances come out descending. -/
theorem C7_counterexample :
    ¬ (dedup_pois hav_lat 0 0 rawC7).Pairwise
      (fun x y => x.d_center_km ≤ y.d_center_km) := by
  decide

/-- C7 (amended): the deduplicator groups candidates by normalized name
key, retains for each key a candidate of minimal distance to the anchor
among its group, and sorts ascending by the distance rounded to 3
decimals (Python's `round(d, 3)` sort key) — not by the raw distance. -/
theorem C7_dedup_group_sort (hav : ℚ → ℚ → ℚ → ℚ → ℚ) (c_lat c_lng : ℚ)
    (raw : List RawPoi) :
    (dedup_pois hav c_lat c_lng raw).Pairwise
      (fun a b => norm_name a.name ≠ norm_name b.name) ∧
    (dedup_pois hav c_lat c_lng raw).Pairwise
      (fun x y => py_round x.d_center_km 3 ≤ py_round y.d_center_km 3) ∧
    ∀ p ∈ dedup_pois hav c_lat c_lng raw,
      (∃ r ∈ raw, p = mk_cpoi hav c_lat c_lng r) ∧
      (∀ r ∈ raw, norm_name r.name = norm_name p.name →
        p.d_center_km ≤ hav c_lat c_lng r.lat r.lng) :=
  ⟨dedup_pois_pairwise hav c_lat c_lng raw, dedup_pois_sorted hav c_lat c_lng raw,
   dedup_pois_min hav c_lat c_lng raw⟩

set_option maxHeartbeats 1600000 in
unseal Rat.add Rat.mul Rat.sub Rat.inv in
/-- C9: the radius filter reads a null `distance_km` as 0 (`(e or 0)`),
so an entry whose routing yielded no distance always passes the filter;
concretely, with an explicit origin and a routing service returning
zero routes, `plan_trip` succeeds with an itinerary item whose
`distance_km` and `duration_min` are both null. -/
theorem C9_null_distance_bypasses_radius
    (hav : ℚ → ℚ → ℚ → ℚ → ℚ) (mode : String) (ola olo : ℚ)
    (enriched : List Entry) (pois : List CPoi) (e : Entry)
    (he : e ∈ enriched) (hd : e.distance_km = none) :
    e.distance_km.getD 0 = 0 ∧
    e ∈ apply_radius_filter hav mode ola olo enriched pois ∧
    ok_satisfies (plan_trip hav_demo today0 world_base "Algiers" none none none "moderate"
        "foot" (some 0) (some 0) 5 12)
      (fun r => r.itinerary.any (fun d => d.items.any
        (fun it => it.distance_km.isNone && it.duration_min.isNone))) = true := by
  refine ⟨by rw [hd]; rfl,
    apply_radius_filter_none_mem hav mode ola olo enriched pois e he hd, by decide⟩

/-- Witness for C9 at a concrete null-distance entry. -/
theorem C9_witness :
    entryC9.distance_km.getD 0 = 0 ∧
    entryC9 ∈ apply_radius_filter hav_demo "foot" 0 0 [entryC9] [] ∧
    ok_satisfies (plan_trip hav_demo today0 world_base "Algiers" none none none "moderate"
        "foot" (some 0) (some 0) 5 12)
      (fun r => r.itinerary.any (fun d => d.items.any
        (fun it => it.distance_km.isNone && it.duration_min.isNone))) = true :=
  C9_null_distance_bypasses_radius hav_demo "foot" 0 0 [entryC9] [] entryC9
    (List.mem_cons_self _ _) rfl
